import Mathlib

/-!
Verification of the insight-generation engine of the job-application tracker
(`backend/services/insightService.js`).

The `InsightService` class is embedded as pure Lean functions over a snapshot
of application records.  The SQL queries (`GROUP BY source, status` /
`GROUP BY resume_version, status`, with `ORDER BY` under the SQLite BINARY
collation, and the `julianday` difference of the response-time query) are
embedded as list operations over the record snapshot; the JavaScript
object-based accumulation, `Array.prototype.reduce` folds with sentinel
objects, and string-template narrative assembly are translated one-to-one.

Numeric conventions of the embedding:
* counts are `ℕ`, rates are `ℤ`, timestamps (julian days) are `ℚ`;
* `Math.round(x)` (round half towards positive infinity) is `⌊x + 1/2⌋`,
  `jsRound`; for the percentage computations `Math.round((n/t)*100)` we use
  the equivalent natural-number form `roundPct` (see `roundPct_spec`) so that
  the analyzers stay kernel-computable;
* JavaScript string comparison (`<`, `>`) on the ASCII strings involved is
  code-unit lexicographic order, embedded as `charsLt` on `String.data`;
  `String.prototype.toLowerCase` on the ASCII status strings is `strLower`;
* JavaScript number arithmetic is embedded exactly (over `ℚ`/`ℤ`/`ℕ`), i.e.
  float rounding at the 15th-digit scale is out of scope;
* JavaScript object-key iteration is embedded as key-insertion order, the
  behaviour for every key that is not an array-index-like string (array-index
  keys, which JavaScript engines reorder first, do not occur as statuses and
  are not considered for source or resume-version labels);
* the prototype-chain behaviour of the `!sourceData[key]` initialization
  check (lookups resolving through `Object.prototype`, global pollution via a
  `__proto__` group label, and the strict-mode TypeError raised by a member
  assignment on an inherited primitive) is modelled by `applyRowJs` and
  `runGroupingJs`, which thread the `Object.prototype` own-property state and
  restrict to the pure `upsert` model exactly on `safeKey` labels.
-/

/-- JavaScript `Math.round` on a rational: round half up, `⌊q + 1/2⌋`. -/
def jsRound (q : ℚ) : ℤ := ⌊q + 1/2⌋

/-- The percentage computation `Math.round((n/t)*100)` used by the analyzers,
in natural-number form: `(200*n + t) / (2*t)` with `ℕ` floor division.
`roundPct_spec` proves it equal to `jsRound ((n/t)*100)` whenever `0 < t`. -/
def roundPct (n t : ℕ) : ℤ := ((200 * n + t) / (2 * t) : ℕ)

/-- Equivalence of the computable percentage rounding with the
`Math.round((n/t)*100)` formula of the source. -/
theorem roundPct_spec (n t : ℕ) (ht : 0 < t) :
    roundPct n t = jsRound ((n : ℚ) / (t : ℚ) * 100) := by
  have htQ : (t : ℚ) ≠ 0 := Nat.cast_ne_zero.mpr ht.ne'
  have h : (n : ℚ) / (t : ℚ) * 100 + 1/2
      = ((200 * n + t : ℕ) : ℚ) / ((2 * t : ℕ) : ℚ) := by
    push_cast
    field_simp
    ring
  rw [jsRound, h, Rat.floor_natCast_div_natCast, roundPct]
  exact Int.natCast_div _ _

/-- ASCII lower-casing of one character (the effect of JavaScript
`toLowerCase` on the ASCII strings this service handles). -/
def charLower (c : Char) : Char :=
  if 'A' ≤ c ∧ c ≤ 'Z' then Char.ofNat (c.toNat + 32) else c

/-- JavaScript `String.prototype.toLowerCase`, restricted to ASCII data. -/
def strLower (s : String) : String := ⟨s.data.map charLower⟩

/-- Lexicographic strict order on character lists: JavaScript string `<`
(code-unit order, which agrees with code-point order on these strings). -/
def charsLt : List Char → List Char → Bool
  | [], [] => false
  | [], _ :: _ => true
  | _ :: _, [] => false
  | a :: as, b :: bs => if a < b then true else if b < a then false else charsLt as bs

/-- JavaScript `a < b` on strings. -/
def strLtB (a b : String) : Bool := charsLt a.data b.data

/-- Insert into a `le`-sorted list (used to embed the SQL `ORDER BY`). -/
def insertSorted {α : Type} (le : α → α → Bool) (x : α) : List α → List α
  | [] => [x]
  | y :: ys => if le x y then x :: y :: ys else y :: insertSorted le x ys

/-- Sort a list by the boolean relation `le` (insertion sort; embeds the SQL
`ORDER BY` clauses, whose keys are pairwise distinct after grouping). -/
def sortBy {α : Type} (le : α → α → Bool) : List α → List α
  | [] => []
  | x :: xs => insertSorted le x (sortBy le xs)

theorem mem_insertSorted {α : Type} (le : α → α → Bool) (x y : α) (l : List α) :
    x ∈ insertSorted le y l ↔ x = y ∨ x ∈ l := by
  induction l with
  | nil => simp [insertSorted]
  | cons z zs ih =>
    by_cases h : le y z
    · simp [insertSorted, h]
    · simp only [insertSorted, if_neg h, List.mem_cons, ih]
      tauto

theorem mem_sortBy {α : Type} (le : α → α → Bool) (x : α) (l : List α) :
    x ∈ sortBy le l ↔ x ∈ l := by
  induction l with
  | nil => simp [sortBy]
  | cons y ys ih => simp [sortBy, mem_insertSorted, ih]

/-- One application record of the snapshot (a row of the `applications`
table).  `appliedAt` is the julian-day timestamp that `julianday(applied_at)`
yields for the stored text timestamp. -/
structure AppRecord where
  company : String
  role : String
  status : String
  source : String
  resumeVersion : String
  appliedAt : ℚ
deriving DecidableEq

/-- The per-key accumulation object created with
`{ total: 0, rejected: 0, applied: 0, interview: 0, offer: 0 }`
(resp. the resume-version variant with the same five keys). -/
structure StatusCounts where
  total : ℕ
  rejected : ℕ
  applied : ℕ
  interview : ℕ
  offer : ℕ
deriving DecidableEq

def StatusCounts.init : StatusCounts := ⟨0, 0, 0, 0, 0⟩

/-- Processing of one grouped SQL row:
`data.total += row.count; data[row.status.toLowerCase()] = row.count`.
A lower-cased status equal to one of the five object keys overwrites that
field (note that `"total"` therefore clobbers the accumulated total); any
other lower-cased status becomes a dynamic key never read again. -/
def applyRow (d : StatusCounts) (status : String) (count : ℕ) : StatusCounts :=
  let d1 : StatusCounts := { d with total := d.total + count }
  let s := strLower status
  if s = "total" then { d1 with total := count }
  else if s = "rejected" then { d1 with rejected := count }
  else if s = "applied" then { d1 with applied := count }
  else if s = "interview" then { d1 with interview := count }
  else if s = "offer" then { d1 with offer := count }
  else d1

/-- Update the association list `sourceData` (JavaScript object keyed by the
grouping value, iterated in insertion order) with one SQL row.  This is the
behaviour of the `if (!sourceData[key])` initialization check for keys that
do not hit the prototype chain; the full JavaScript semantics, in which the
check can resolve through `Object.prototype` (a `__proto__` key pollutes it
globally and a key with an inherited truthy value raises a strict-mode
TypeError), is `applyRowJs` below, which coincides with `upsert` exactly on
`safeKey` labels (`applyRowJs_clean`). -/
def upsert (m : List (String × StatusCounts)) (key status : String) (count : ℕ) :
    List (String × StatusCounts) :=
  match m with
  | [] => [(key, applyRow StatusCounts.init status count)]
  | (k, d) :: rest =>
    if k = key then (k, applyRow d status count) :: rest
    else (k, d) :: upsert rest key status count

/-- Fold all grouped rows into the keyed accumulation object; the resulting
association list order is the key-insertion order of the object. -/
def buildGroups (rows : List (String × String × ℕ)) : List (String × StatusCounts) :=
  rows.foldl (fun m row => upsert m row.1 row.2.1 row.2.2) []

/-- Embedding of
`SELECT key, status, COUNT(*) FROM applications GROUP BY key, status ORDER BY key, status`:
the distinct (key, status) pairs in ascending binary order, each with its
record count. -/
def sqlGroupRows (key : AppRecord → String) (records : List AppRecord) :
    List (String × String × ℕ) :=
  let pairs := (records.map (fun r => (key r, r.status))).dedup
  let sorted := sortBy
    (fun a b => strLtB a.1 b.1 || (decide (a.1 = b.1) &&
      (strLtB a.2 b.2 || decide (a.2 = b.2)))) pairs
  sorted.map (fun p =>
    (p.1, p.2, (records.filter (fun r => decide (key r = p.1 ∧ r.status = p.2))).length))

theorem mem_sqlGroupRows_status {key : AppRecord → String} {records : List AppRecord}
    {row : String × String × ℕ} (h : row ∈ sqlGroupRows key records) :
    ∃ r ∈ records, r.status = row.2.1 := by
  simp only [sqlGroupRows, List.mem_map] at h
  obtain ⟨p, hp, hrow⟩ := h
  rw [mem_sortBy, List.mem_dedup, List.mem_map] at hp
  obtain ⟨r, hr, hpr⟩ := hp
  exact ⟨r, hr, by rw [← hrow, ← hpr]⟩

/-- Accumulator of the JavaScript `reduce` calls that start from a sentinel
object literal (`{ rejectionRate: 0 }`, `{ successRate: "0%" }`,
`{ status: '', avg: Infinity }`, ...): either still the sentinel, or one of
the elements of the array. -/
inductive Sel (α : Type) where
  | sentinel : Sel α
  | found : α → Sel α
deriving DecidableEq

/-- The comparison field read off the accumulator: the literal sentinel
field value `sent`, or `rate` of a found element. -/
def Sel.rateD {α ρ : Type} (sent : ρ) (rate : α → ρ) : Sel α → ρ
  | .sentinel => sent
  | .found a => rate a

/-- JavaScript `array.reduce((acc, x) => better(x.rate, acc.rate) ? x : acc,
sentinel)`, generic in the rate projection and the comparison. -/
def jsReduceSel {α ρ : Type} (rate : α → ρ) (better : ρ → ρ → Bool) (sent : ρ)
    (l : List α) : Sel α :=
  l.foldl (fun acc x => if better (rate x) (Sel.rateD sent rate acc) then .found x else acc)
    .sentinel

theorem foldl_sel_stay {α ρ : Type} (rate : α → ρ) (better : ρ → ρ → Bool) (sent : ρ)
    (l : List α) (acc : Sel α)
    (h : ∀ x ∈ l, better (rate x) (Sel.rateD sent rate acc) = false) :
    l.foldl (fun acc x => if better (rate x) (Sel.rateD sent rate acc) then .found x else acc)
      acc = acc := by
  induction l with
  | nil => rfl
  | cons x t ih =>
    have hx := h x (List.mem_cons_self x t)
    simp only [List.foldl_cons, hx, Bool.false_eq_true, if_false]
    exact ih (fun y hy => h y (List.mem_cons_of_mem x hy))

/-- If nothing in the array beats the sentinel, the reduce returns the
sentinel object. -/
theorem jsReduceSel_sentinel {α ρ : Type} (rate : α → ρ) (better : ρ → ρ → Bool)
    (sent : ρ) (l : List α) (h : ∀ x ∈ l, better (rate x) sent = false) :
    jsReduceSel rate better sent l = .sentinel :=
  foldl_sel_stay rate better sent l .sentinel h

theorem foldl_sel_found {α ρ : Type} (rate : α → ρ) (better : ρ → ρ → Bool)
    (htr : ∀ (a b : α) (c : ρ), better (rate a) (rate b) = true →
      better (rate b) c = true → better (rate a) c = true)
    (hasym : ∀ (a b : α), better (rate a) (rate b) = true →
      better (rate b) (rate a) = false)
    (hM : ∀ (a b : α) (c : ρ), better (rate a) c = true →
      better (rate b) c = false → better (rate a) (rate b) = true)
    (sent : ρ) :
    ∀ (l : List α) (acc : Sel α),
    (∃ x ∈ l, better (rate x) (Sel.rateD sent rate acc) = true) →
    ∃ pre i post, l = pre ++ i :: post ∧
      l.foldl (fun acc x => if better (rate x) (Sel.rateD sent rate acc) then .found x
        else acc) acc = .found i ∧
      better (rate i) (Sel.rateD sent rate acc) = true ∧
      (∀ j ∈ pre, better (rate i) (rate j) = true) ∧
      (∀ j ∈ l, better (rate j) (rate i) = false) := by
  intro l
  induction l with
  | nil => rintro acc ⟨x, hx, -⟩; cases hx
  | cons x t ih =>
    intro acc hex
    by_cases hx : better (rate x) (Sel.rateD sent rate acc) = true
    · simp only [List.foldl_cons, hx, if_true]
      by_cases hext : ∃ j ∈ t, better (rate j) (rate x) = true
      · obtain ⟨pre2, i, post2, heq, hfold, hbi, hpre, hall⟩ := ih (.found x)
          (by simpa [Sel.rateD] using hext)
        rw [Sel.rateD] at hbi
        refine ⟨x :: pre2, i, post2, by rw [heq, List.cons_append], hfold,
          htr i x _ hbi hx, ?_, ?_⟩
        · intro j hj
          rcases List.mem_cons.mp hj with hj | hj
          · rw [hj]; exact hbi
          · exact hpre j hj
        · intro j hj
          rcases List.mem_cons.mp hj with hj | hj
          · rw [hj]; exact hasym i x hbi
          · exact hall j hj
      · push_neg at hext
        have hstay : ∀ y ∈ t, better (rate y) (Sel.rateD sent rate (Sel.found x)) = false := by
          intro y hy
          rw [Sel.rateD]
          exact Bool.eq_false_iff.mpr (hext y hy)
        refine ⟨[], x, t, rfl, foldl_sel_stay rate better sent t (.found x) hstay, hx,
          ?_, ?_⟩
        · intro j hj
          exact absurd hj (List.not_mem_nil j)
        intro j hj
        rcases List.mem_cons.mp hj with hj | hj
        · rw [hj]
          rcases Bool.eq_false_or_eq_true (better (rate x) (rate x)) with h0 | h0
          · exact hasym x x h0
          · exact h0
        · exact Bool.eq_false_iff.mpr (hext j hj)
    · have hxf : better (rate x) (Sel.rateD sent rate acc) = false :=
        Bool.eq_false_iff.mpr hx
      simp only [List.foldl_cons, hxf, Bool.false_eq_true, if_false]
      have hext : ∃ j ∈ t, better (rate j) (Sel.rateD sent rate acc) = true := by
        obtain ⟨j, hj, hbj⟩ := hex
        rcases List.mem_cons.mp hj with hj | hj
        · rw [hj] at hbj; exact absurd hbj hx
        · exact ⟨j, hj, hbj⟩
      obtain ⟨pre2, i, post2, heq, hfold, hbi, hpre, hall⟩ := ih acc hext
      have hbix : better (rate i) (rate x) = true := hM i x _ hbi hxf
      refine ⟨x :: pre2, i, post2, by rw [heq, List.cons_append], hfold, hbi, ?_, ?_⟩
      · intro j hj
        rcases List.mem_cons.mp hj with hj | hj
        · rw [hj]; exact hbix
        · exact hpre j hj
      · intro j hj
        rcases List.mem_cons.mp hj with hj | hj
        · rw [hj]; exact hasym i x hbix
        · exact hall j hj

/-- Main property of the sentinel-seeded `reduce`: as soon as some element
beats the sentinel, the result is the first element that attains the
strict-comparison maximum (fold-left with a strict comparison: the
first-encountered element wins all ties). -/
theorem jsReduceSel_found {α ρ : Type} (rate : α → ρ) (better : ρ → ρ → Bool)
    (sent : ρ) (l : List α)
    (htr : ∀ (a b : α) (c : ρ), better (rate a) (rate b) = true →
      better (rate b) c = true → better (rate a) c = true)
    (hasym : ∀ (a b : α), better (rate a) (rate b) = true →
      better (rate b) (rate a) = false)
    (hM : ∀ (a b : α) (c : ρ), better (rate a) c = true →
      better (rate b) c = false → better (rate a) (rate b) = true)
    (hex : ∃ x ∈ l, better (rate x) sent = true) :
    ∃ pre i post, l = pre ++ i :: post ∧
      jsReduceSel rate better sent l = .found i ∧
      better (rate i) sent = true ∧
      (∀ j ∈ pre, better (rate i) (rate j) = true) ∧
      (∀ j ∈ l, better (rate j) (rate i) = false) :=
  foldl_sel_found rate better htr hasym hM sent l .sentinel hex

/-- The comparison `candidate > accumulator` on numbers, as used by the
max-selecting reduces. -/
def gtB (a b : ℤ) : Bool := decide (b < a)

/-- The comparison `candidate < accumulator` on numbers, as used by the
min-selecting reduces. -/
def ltB (a b : ℤ) : Bool := decide (a < b)

/-- JavaScript `candidate > accumulator` on strings (code-unit order). -/
def strGtB (a b : String) : Bool := strLtB b a

/-- One element of the internal per-source `insights` array (numeric rates). -/
structure SourceInsight where
  source : String
  totalApplications : ℕ
  rejectionRate : ℤ
  rejectionCount : ℕ
  successRate : ℤ
deriving DecidableEq

/-- Per-source insight computation of `getRejectionRateBySource`:
`rejectionRate = total > 0 ? Math.round((rejected/total)*100) : 0`,
`successRate = 100 - rejectionRate`. -/
def mkSourceInsight (source : String) (d : StatusCounts) : SourceInsight :=
  let rejectionRate : ℤ := if 0 < d.total then roundPct d.rejected d.total else 0
  { source := source
    totalApplications := d.total
    rejectionRate := rejectionRate
    rejectionCount := d.rejected
    successRate := 100 - rejectionRate }

/-- The internal `insights` array of `getRejectionRateBySource`, in
object-key insertion order. -/
def sourceInsights (records : List AppRecord) : List SourceInsight :=
  (buildGroups (sqlGroupRows (fun r => r.source) records)).map
    (fun p => mkSourceInsight p.1 p.2)

/-- Embedding of `insights.reduce((max, insight) => insight.rejectionRate >
max.rejectionRate ? insight : max, { rejectionRate: 0 })`. -/
def highestRejection (insights : List SourceInsight) : Sel SourceInsight :=
  jsReduceSel (fun i => i.rejectionRate) gtB 0 insights

/-- Embedding of `insights.reduce((min, insight) => insight.rejectionRate <
min.rejectionRate ? insight : min, { rejectionRate: 100 })`. -/
def lowestRejection (insights : List SourceInsight) : Sel SourceInsight :=
  jsReduceSel (fun i => i.rejectionRate) ltB 100 insights

/-- Reading `.source` off a reduce result; the sentinel object has no such
field, and interpolating the resulting `undefined` prints `"undefined"`. -/
def selSource : Sel SourceInsight → String
  | .sentinel => "undefined"
  | .found i => i.source

/-- The guard `lowestRejection.successRate > 70`: on the sentinel the field
is `undefined` and the comparison is false. -/
def selSuccessGt70 : Sel SourceInsight → Bool
  | .sentinel => false
  | .found i => decide (70 < i.successRate)

/-- The narrative builder `_generateRejectionRateSummary`. -/
def generateRejectionRateSummary (insights : List SourceInsight)
    (high low : Sel SourceInsight) : String :=
  let tot := insights.foldl (fun s i => s + i.totalApplications) 0
  let header := s!"📊 **Rejection Rate Analysis** (Based on {tot} total applications)"
  if insights.length = 0 then
    String.intercalate "\n" [header, "No application data available for analysis."]
  else
    let ls := selSource low
    let lr := toString (Sel.rateD 100 (fun i => i.rejectionRate) low)
    let hs := selSource high
    let hrv := Sel.rateD 0 (fun i => i.rejectionRate) high
    let hr := toString hrv
    let lines := [header,
        s!"\n🎯 **Best Performing Source**: {ls} with only {lr}% rejection rate",
        s!"🚨 **Highest Rejection Source**: {hs} with {hr}% rejection rate"]
      ++ (if 50 < hrv then
          [s!"\n⚠️ **Recommendation**: Consider improving your approach for {hs} applications."]
        else [])
      ++ (if selSuccessGt70 low then
          [s!"✅ **Success Pattern**: Your strategy for {ls} is working well - keep it up!"]
        else [])
      ++ ["\n📋 **Detailed Breakdown**:"]
      ++ insights.map (fun i =>
          let src := i.source
          let rr := toString i.rejectionRate
          let rc := toString i.rejectionCount
          let ta := toString i.totalApplications
          s!"- {src}: {rr} rejection rate ({rc} rejections out of {ta} applications)")
    String.intercalate "\n" lines

/-- One element of the returned `insights` array: the rates are re-rendered
as percent-suffixed template strings. -/
structure SourceInsightStr where
  source : String
  totalApplications : ℕ
  rejectionRate : String
  rejectionCount : ℕ
  successRate : String
deriving DecidableEq

/-- The output mapping of `getRejectionRateBySource`:
`rejectionRate: `${insight.rejectionRate}%``, etc. -/
def stringifyInsight (i : SourceInsight) : SourceInsightStr :=
  { source := i.source
    totalApplications := i.totalApplications
    rejectionRate := toString i.rejectionRate ++ "%"
    rejectionCount := i.rejectionCount
    successRate := toString i.successRate ++ "%" }

/-- Result object of `getRejectionRateBySource`. -/
structure SourceResult where
  success : Bool
  insights : List SourceInsightStr
  summary : String
deriving DecidableEq

/-- The source-rejection analyzer `getRejectionRateBySource`, as a function
of the record snapshot. -/
def getRejectionRateBySource (records : List AppRecord) : SourceResult :=
  let insights := sourceInsights records
  let high := highestRejection insights
  let low := lowestRejection insights
  { success := true
    insights := insights.map stringifyInsight
    summary := generateRejectionRateSummary insights high low }

/-- One element of the `versionInsights` array of
`getBestPerformingResumeVersion` (all rates numeric). -/
structure VersionInsight where
  version : String
  totalApplications : ℕ
  rejectionRate : ℤ
  successRate : ℤ
  interviewRate : ℤ
  offerRate : ℤ
deriving DecidableEq

/-- Per-version metrics: `successRate = Math.round(((interview + offer) /
total) * 100)`, `interviewRate` and `offerRate` analogous, with the same
zero-total guards as the source analyzer. -/
def mkVersionInsight (version : String) (d : StatusCounts) : VersionInsight :=
  { version := version
    totalApplications := d.total
    rejectionRate := if 0 < d.total then roundPct d.rejected d.total else 0
    successRate := if 0 < d.total then roundPct (d.interview + d.offer) d.total else 0
    interviewRate := if 0 < d.total then roundPct d.interview d.total else 0
    offerRate := if 0 < d.total then roundPct d.offer d.total else 0 }

/-- The `versionInsights` array, in object-key insertion order. -/
def versionInsights (records : List AppRecord) : List VersionInsight :=
  (buildGroups (sqlGroupRows (fun r => r.resumeVersion) records)).map
    (fun p => mkVersionInsight p.1 p.2)

/-- Embedding of `versionInsights.reduce((best, version) => version.successRate
> best.successRate ? version : best, { successRate: 0 })`. -/
def bestVersion (versions : List VersionInsight) : Sel VersionInsight :=
  jsReduceSel (fun v => v.successRate) gtB 0 versions

/-- Embedding of `versionInsights.reduce((worst, version) => version.successRate
< worst.successRate ? version : worst, { successRate: 100 })`. -/
def worstVersion (versions : List VersionInsight) : Sel VersionInsight :=
  jsReduceSel (fun v => v.successRate) ltB 100 versions

/-- Reading `.version` off a reduce result (`undefined` on the sentinel). -/
def selVersion : Sel VersionInsight → String
  | .sentinel => "undefined"
  | .found v => v.version

/-- Interpolating a numeric field that the sentinel object lacks. -/
def selFieldStr (f : VersionInsight → ℤ) : Sel VersionInsight → String
  | .sentinel => "undefined"
  | .found v => toString (f v)

/-- Interpolating `.totalApplications` (`undefined` on the sentinel). -/
def selTotalStr : Sel VersionInsight → String
  | .sentinel => "undefined"
  | .found v => toString v.totalApplications

/-- The guard `worstVersion.rejectionRate > 60`: `undefined` on the
sentinel, hence false. -/
def selWorstRejGt60 : Sel VersionInsight → Bool
  | .sentinel => false
  | .found v => decide (60 < v.rejectionRate)

/-- The narrative builder `_generateResumeVersionSummary`. -/
def generateResumeVersionSummary (versions : List VersionInsight)
    (best worst : Sel VersionInsight) : String :=
  let header := "📄 **Resume Version Performance Analysis**"
  if versions.length = 0 then
    String.intercalate "\n" [header, "No resume version data available for analysis."]
  else
    let bv := selVersion best
    let bsr := Sel.rateD 0 (fun v => v.successRate) best
    let bs := toString bsr
    let bi := selFieldStr (fun v => v.interviewRate) best
    let bo := selFieldStr (fun v => v.offerRate) best
    let bt := selTotalStr best
    let wv := selVersion worst
    let wsr := Sel.rateD 100 (fun v => v.successRate) worst
    let ws := toString wsr
    let wi := selFieldStr (fun v => v.interviewRate) worst
    let wo := selFieldStr (fun v => v.offerRate) worst
    let wt := selTotalStr worst
    let lines := [header,
        s!"\n🏆 **Best Performing Version**: Resume {bv}",
        s!"   - Success Rate: {bs}%",
        s!"   - Interview Rate: {bi}%",
        s!"   - Offer Rate: {bo}%",
        s!"   - Total Applications: {bt}",
        s!"\n👎 **Lowest Performing Version**: Resume {wv}",
        s!"   - Success Rate: {ws}%",
        s!"   - Interview Rate: {wi}%",
        s!"   - Offer Rate: {wo}%",
        s!"   - Total Applications: {wt}"]
      ++ (if wsr + 20 < bsr then
          [s!"\n💡 **Recommendation**: Consider using Resume {bv} as your primary template."]
        else [])
      ++ (if selWorstRejGt60 worst then
          [s!"⚠️ **Warning**: Resume {wv} has a high rejection rate - consider revising it."]
        else [])
      ++ ["\n📊 **All Resume Versions**:"]
      ++ versions.map (fun v =>
          let vv := v.version
          let vs := toString v.successRate
          let vi := toString v.interviewRate
          let vo := toString v.offerRate
          s!"- Resume {vv}: {vs}% success rate ({vi}% interviews, {vo}% offers)")
    String.intercalate "\n" lines

/-- Result object of `getBestPerformingResumeVersion`. -/
structure ResumeResult where
  success : Bool
  versions : List VersionInsight
  summary : String
deriving DecidableEq

/-- The resume-version analyzer `getBestPerformingResumeVersion`, as a
function of the record snapshot. -/
def getBestPerformingResumeVersion (records : List AppRecord) : ResumeResult :=
  let versions := versionInsights records
  let best := bestVersion versions
  let worst := worstVersion versions
  { success := true
    versions := versions
    summary := generateResumeVersionSummary versions best worst }

/-- An ASCII apostrophe, used inside narrative strings. -/
def apo : String := String.singleton (Char.ofNat 39)

/-- One row of the response-time query: the status of the record and
`julianday(now) - julianday(applied_at)`. -/
structure RespApp where
  status : String
  days : ℚ
deriving DecidableEq

/-- Embedding of the response-time query: records with status in
(Interview, Offer, Rejected), ordered by `applied_at`, each with its
days-since-applied value. -/
def responseApps (now : ℚ) (records : List AppRecord) : List RespApp :=
  (sortBy (fun a b => decide (a.appliedAt ≤ b.appliedAt))
      (records.filter (fun r =>
        decide (r.status = "Interview") || decide (r.status = "Offer") ||
          decide (r.status = "Rejected")))).map
    (fun r => { status := r.status, days := now - r.appliedAt })

/-- The `statusGroups[status]` array: the day counts pushed for one status,
in application order. -/
def statusDays (status : String) (apps : List RespApp) : List ℚ :=
  (apps.filter (fun a => decide (a.status = status))).map (fun a => a.days)

/-- The `averages` object: for each of the three fixed keys in insertion
order, the rounded mean of its day counts — keys with no data are skipped
entirely. -/
def avgEntries (apps : List RespApp) : List (String × ℤ) :=
  ["Interview", "Offer", "Rejected"].filterMap (fun status =>
    let days := statusDays status apps
    if 0 < days.length then
      some (status, jsRound ((days.foldl (fun sum day => sum + day) 0) / (days.length : ℚ)))
    else none)

/-- The comparison `avg < fastest.avg` where the sentinel field `avg` is
`Infinity`: anything is below `Infinity`, nothing is below a number if the
candidate is `Infinity`. -/
def jsLtInfB : Option ℤ → Option ℤ → Bool
  | _, none => true
  | none, some _ => false
  | some a, some b => decide (a < b)

/-- Embedding of `statusesWithAverages.reduce((fastest, [status, avg]) => avg <
fastest.avg ? { status, avg } : fastest, { status: '', avg: Infinity })`. -/
def fastestResponse (avgs : List (String × ℤ)) : Sel (String × ℤ) :=
  jsReduceSel (fun e => some e.2) jsLtInfB none avgs

/-- Embedding of `statusesWithAverages.reduce((slowest, [status, avg]) => avg >
slowest.avg ? { status, avg } : slowest, { status: '', avg: 0 })`. -/
def slowestResponse (avgs : List (String × ℤ)) : Sel (String × ℤ) :=
  jsReduceSel (fun e => e.2) gtB 0 avgs

/-- Reading `.status` off the fastest/slowest accumulator (the sentinel
carries the empty string). -/
def selStatus : Sel (String × ℤ) → String
  | .sentinel => ""
  | .found e => e.1

/-- Interpolating the field `.avg` of the fastest accumulator (`Infinity` on the
sentinel). -/
def fastAvgStr : Sel (String × ℤ) → String
  | .sentinel => "Infinity"
  | .found e => toString e.2

/-- Interpolating the field `.avg` of the slowest accumulator (`0` on the sentinel). -/
def slowAvgStr (s : Sel (String × ℤ)) : String :=
  toString (Sel.rateD 0 (fun e => e.2) s)

/-- JavaScript truthiness of an optional looked-up average (`undefined` and
`0` are falsy). -/
def optTruthy : Option ℤ → Bool
  | none => false
  | some v => decide (v ≠ 0)

/-- The guard `averages.X && averages.X < bound`. -/
def optTruthyAndLt (o : Option ℤ) (bound : ℤ) : Bool :=
  match o with
  | none => false
  | some v => decide (v ≠ 0) && decide (v < bound)

/-- The guard `averages.X && averages.X > bound`. -/
def optTruthyAndGt (o : Option ℤ) (bound : ℤ) : Bool :=
  match o with
  | none => false
  | some v => decide (v ≠ 0) && decide (bound < v)

/-- The narrative builder `_generateResponseTimeSummary`. -/
def generateResponseTimeSummary (avgs : List (String × ℤ))
    (fast slow : Sel (String × ℤ)) (apps : List RespApp) : String :=
  let n := apps.length
  let header := s!"⏱️ **Response Time Analysis** (Based on {n} completed applications)"
  if avgs.length = 0 then
    String.intercalate "\n" [header, "No response time data available for analysis."]
  else
    let fs := selStatus fast
    let fa := fastAvgStr fast
    let ss := selStatus slow
    let sa := slowAvgStr slow
    let iv := List.lookup "Interview" avgs
    let ov := List.lookup "Offer" avgs
    let rv := List.lookup "Rejected" avgs
    let lines := [header,
        s!"\n🏃 **Fastest Response**: {fs} in {fa} days on average",
        s!"🐢 **Slowest Response**: {ss} in {sa} days on average",
        "\n📊 **Average Response Times**:"]
      ++ (match iv with
        | some v => if v ≠ 0 then
            (let vs := toString v; [s!"- Interview: {vs} days from application"]) else []
        | none => [])
      ++ (match ov with
        | some v => if v ≠ 0 then
            (let vs := toString v; [s!"- Offer: {vs} days from application"]) else []
        | none => [])
      ++ (match rv with
        | some v => if v ≠ 0 then
            (let vs := toString v; [s!"- Rejection: {vs} days from application"]) else []
        | none => [])
      ++ (if optTruthyAndLt iv 7 then
          ["\n✅ **Positive Insight**: Getting interviews quickly (under 7 days) suggests your applications are strong."]
        else [])
      ++ (if optTruthyAndLt ov 14 then
          ["✅ **Excellent Performance**: Receiving offers in under 2 weeks is very competitive."]
        else [])
      ++ (if optTruthyAndLt rv 5 then
          ["\n⚠️ **Quick Rejections**: Being rejected in under 5 days might indicate your applications aren" ++ apo ++ "t getting proper consideration."]
        else [])
      ++ (if optTruthyAndGt iv 21 then
          ["\n💡 **Recommendation**: Consider following up on applications if you don" ++ apo ++ "t hear back within 2-3 weeks."]
        else [])
    String.intercalate "\n" lines

/-- Result object of `getAverageResponseTime`; `averages = none` embeds a
returned object that has no `averages` property at all. -/
structure ResponseTimeResult where
  success : Bool
  averages : Option (List (String × ℤ))
  summary : String
deriving DecidableEq

/-- The response-time analyzer `getAverageResponseTime`, as a function of
the current julian-day time and the record snapshot.  On an empty qualifying
set it returns early with a fixed narrative and no `averages` field. -/
def getAverageResponseTime (now : ℚ) (records : List AppRecord) : ResponseTimeResult :=
  let apps := responseApps now records
  if apps.length = 0 then
    { success := true
      averages := none
      summary := "📊 **Response Time Analysis**: No completed applications (Interview/Offer/Rejected) found in the database." }
  else
    let avgs := avgEntries apps
    { success := true
      averages := some avgs
      summary := generateResponseTimeSummary avgs (fastestResponse avgs)
        (slowestResponse avgs) apps }

/-- Digit-prefix value for `parseInt`. -/
def digitsToNat (l : List Char) : ℕ :=
  l.foldl (fun n c => 10 * n + (c.toNat - 48)) 0

/-- JavaScript `parseInt` (base 10) on the strings this service produces:
an optional sign followed by the longest digit prefix; no digits means
`NaN`, embedded as `none`. -/
def jsParseInt (s : String) : Option ℤ :=
  match s.data with
  | [] => none
  | c :: rest =>
    if c = '-' then
      let ds := rest.takeWhile Char.isDigit
      if ds.length = 0 then none else some (-(digitsToNat ds : ℤ))
    else if c = '+' then
      let ds := rest.takeWhile Char.isDigit
      if ds.length = 0 then none else some (digitsToNat ds)
    else
      let ds := (c :: rest).takeWhile Char.isDigit
      if ds.length = 0 then none else some (digitsToNat ds)

/-- The Key-Findings reduce of `getComprehensiveInsights`: it runs over the
returned (string-rate) insights with sentinel `{ successRate: "0%" }`, so
the comparison `insight.successRate > best.successRate` is JavaScript
string comparison of percent strings. -/
def keyFindingsBestSource (insights : List SourceInsightStr) : Sel SourceInsightStr :=
  jsReduceSel (fun i => i.successRate) strGtB "0%" insights

/-- The Key-Findings best-resume reduce (numeric rates, sentinel
`{ successRate: 0 }`). -/
def keyFindingsBestResume (versions : List VersionInsight) : Sel VersionInsight :=
  jsReduceSel (fun v => v.successRate) gtB 0 versions

/-- Reading `.source` off the Key-Findings reduce result. -/
def selSourceStr : Sel SourceInsightStr → String
  | .sentinel => "undefined"
  | .found i => i.source

/-- The guard `parseInt(i.rejectionRate) > 50` (false on `NaN`). -/
def parseGt50 (i : SourceInsightStr) : Bool :=
  match jsParseInt i.rejectionRate with
  | none => false
  | some n => decide (50 < n)

/-- The guard `responseTimeInsights.averages &&
responseTimeInsights.averages.Interview > 14` (false when the `averages`
property is absent or lacks an `Interview` key). -/
def avgInterviewGt14 : Option (List (String × ℤ)) → Bool
  | none => false
  | some m =>
    match List.lookup "Interview" m with
    | none => false
    | some v => decide (14 < v)

/-- The three sub-reports under `detailedInsights`. -/
structure DetailedInsights where
  rejectionRate : SourceResult
  resumePerformance : ResumeResult
  responseTime : ResponseTimeResult
deriving DecidableEq

/-- Result object of `getComprehensiveInsights`. -/
structure ComprehensiveResult where
  success : Bool
  comprehensiveSummary : String
  detailedInsights : DetailedInsights
deriving DecidableEq

/-- Composite-report assembly of `getComprehensiveInsights` from the three
sub-reports (the Key Findings, Recommendations, and Detailed Analysis
sections). -/
def assembleComprehensive (rejectionInsights : SourceResult)
    (resumeInsights : ResumeResult) (responseTimeInsights : ResponseTimeResult) :
    ComprehensiveResult :=
  let bestSrc := keyFindingsBestSource rejectionInsights.insights
  let bestRes := keyFindingsBestResume resumeInsights.versions
  let srcLine :=
    if 0 < rejectionInsights.insights.length then
      let src := selSourceStr bestSrc
      let sr := Sel.rateD "0%" (fun i => i.successRate) bestSrc
      [s!"✅ Your best application source is {src} with {sr} success rate."]
    else []
  let resLine :=
    if 0 < resumeInsights.versions.length then
      let rv := selVersion bestRes
      let rs := toString (Sel.rateD 0 (fun v => v.successRate) bestRes)
      [s!"📄 Your best performing resume is version {rv} with {rs}% success rate."]
    else []
  let avgLines :=
    match responseTimeInsights.averages with
    | some m =>
      if 0 < m.length then
        (match List.lookup "Interview" m with
          | some v => if v ≠ 0 then
              (let vs := toString v; [s!"⏱️ Average time to interview: {vs} days"]) else []
          | none => [])
        ++ (match List.lookup "Offer" m with
          | some v => if v ≠ 0 then
              (let vs := toString v; [s!"💼 Average time to offer: {vs} days"]) else []
          | none => [])
      else []
    | none => []
  let recLines :=
    (if rejectionInsights.insights.any parseGt50 then
        ["🚨 Consider improving your application strategy for sources with high rejection rates."]
      else [])
    ++ (if resumeInsights.versions.any (fun v => decide (v.successRate < 30)) then
        ["📝 Review and update low-performing resume versions."]
      else [])
    ++ (if avgInterviewGt14 responseTimeInsights.averages then
        ["⏰ Follow up on applications after 2 weeks if you haven" ++ apo ++ "t heard back."]
      else [])
  let lines := ["📊 **COMPREHENSIVE JOB APPLICATION INSIGHTS**",
      "============================================\n",
      "🔍 **Key Findings**:\n"]
    ++ srcLine ++ resLine ++ avgLines
    ++ ["\n💡 **Recommendations**:\n"]
    ++ recLines
    ++ ["\n📈 **Detailed Analysis**:",
      "\n" ++ rejectionInsights.summary,
      "\n" ++ resumeInsights.summary,
      "\n" ++ responseTimeInsights.summary]
  { success := true
    comprehensiveSummary := String.intercalate "\n" lines
    detailedInsights :=
      { rejectionRate := rejectionInsights
        resumePerformance := resumeInsights
        responseTime := responseTimeInsights } }

/-- The aggregator `getComprehensiveInsights` as a function of a single
database state: it runs the three analyzers (each of which re-reads that
state, embedded as the shared snapshot `records`) and assembles the
composite narrative.  This is the behaviour when no group label touches the
prototype chain; `jsGetComprehensiveInsights` below adds the
`Object.prototype` state and failure behaviour of the real grouping loops. -/
def getComprehensiveInsights (now : ℚ) (records : List AppRecord) : ComprehensiveResult :=
  assembleComprehensive (getRejectionRateBySource records)
    (getBestPerformingResumeVersion records) (getAverageResponseTime now records)

theorem gtB_true_iff {a b : ℤ} : gtB a b = true ↔ b < a := by simp [gtB]

theorem gtB_false_iff {a b : ℤ} : gtB a b = false ↔ a ≤ b := by
  simp [gtB]

theorem ltB_true_iff {a b : ℤ} : ltB a b = true ↔ a < b := by simp [ltB]

theorem ltB_false_iff {a b : ℤ} : ltB a b = false ↔ b ≤ a := by
  simp [ltB]

theorem charsLt_irrefl : ∀ (a : List Char), charsLt a a = false := by
  intro a
  induction a with
  | nil => rfl
  | cons x xs ih => simp [charsLt, lt_irrefl, ih]

theorem charsLt_trans : ∀ (a b c : List Char),
    charsLt a b = true → charsLt b c = true → charsLt a c = true := by
  intro a
  induction a with
  | nil =>
    intro b c hab hbc
    cases c with
    | nil =>
      cases b with
      | nil => simp [charsLt] at hab
      | cons y ys => simp [charsLt] at hbc
    | cons z zs => simp [charsLt]
  | cons x xs ih =>
    intro b c hab hbc
    cases b with
    | nil => simp [charsLt] at hab
    | cons y ys =>
      cases c with
      | nil => simp [charsLt] at hbc
      | cons z zs =>
        by_cases h2 : y < z
        · by_cases h1 : x < y
          · have hxz : x < z := lt_trans h1 h2
            simp [charsLt, hxz]
          · by_cases h1b : y < x
            · simp [charsLt, h1, h1b] at hab
            · have hxy : x = y := le_antisymm (not_lt.mp h1b) (not_lt.mp h1)
              have hxz : x < z := hxy ▸ h2
              simp [charsLt, hxz]
        · by_cases h3 : z < y
          · simp [charsLt, h2, h3] at hbc
          · have hyz : y = z := le_antisymm (not_lt.mp h3) (not_lt.mp h2)
            have hbc2 : charsLt ys zs = true := by simpa [charsLt, h2, h3] using hbc
            by_cases h1 : x < y
            · have hxz : x < z := hyz ▸ h1
              simp [charsLt, hxz]
            · by_cases h1b : y < x
              · simp [charsLt, h1, h1b] at hab
              · have hxy : x = y := le_antisymm (not_lt.mp h1b) (not_lt.mp h1)
                have hab2 : charsLt xs ys = true := by simpa [charsLt, h1, h1b] using hab
                have htail : charsLt xs zs = true := ih ys zs hab2 hbc2
                have hxz1 : ¬ x < z := by rw [hxy, hyz]; exact lt_irrefl z
                have hxz2 : ¬ z < x := by rw [hxy, hyz]; exact lt_irrefl z
                simp [charsLt, hxz1, hxz2, htail]

theorem charsLt_asym (a b : List Char) (h : charsLt a b = true) : charsLt b a = false := by
  rcases Bool.eq_false_or_eq_true (charsLt b a) with h0 | h0
  · have := charsLt_trans a b a h h0
    rw [charsLt_irrefl] at this
    exact absurd this (by simp)
  · exact h0

theorem charsLt_conn : ∀ (a b : List Char),
    charsLt a b = false → charsLt b a = false → a = b := by
  intro a
  induction a with
  | nil =>
    intro b hab _
    cases b with
    | nil => rfl
    | cons y ys => simp [charsLt] at hab
  | cons x xs ih =>
    intro b hab hba
    cases b with
    | nil => simp [charsLt] at hba
    | cons y ys =>
      by_cases h1 : x < y
      · simp [charsLt, h1] at hab
      · by_cases h2 : y < x
        · simp [charsLt, h1, h2] at hba
        · have hxy : x = y := le_antisymm (not_lt.mp h2) (not_lt.mp h1)
          have hab2 : charsLt xs ys = false := by simpa [charsLt, h1, h2] using hab
          have hba2 : charsLt ys xs = false := by simpa [charsLt, h1, h2] using hba
          rw [hxy, ih ys hab2 hba2]

theorem strGtB_trans (a b : String) (c : String) (h1 : strGtB a b = true)
    (h2 : strGtB b c = true) : strGtB a c = true :=
  charsLt_trans c.data b.data a.data h2 h1

theorem strGtB_asym (a b : String) (h : strGtB a b = true) : strGtB b a = false :=
  charsLt_asym b.data a.data h

theorem strGtB_m (a b c : String) (h1 : strGtB a c = true) (h2 : strGtB b c = false) :
    strGtB a b = true := by
  have h2d : charsLt c.data b.data = false := h2
  rcases Bool.eq_false_or_eq_true (charsLt b.data c.data) with h4 | h4
  · exact charsLt_trans b.data c.data a.data h4 h1
  · have hbc : b.data = c.data := charsLt_conn b.data c.data h4 h2d
    unfold strGtB strLtB
    rw [hbc]
    exact h1

/-- Invariant of the accumulation object as long as no status lower-cases to
the reserved key `"total"`: the four named status counts never exceed the
accumulated total. -/
def okCounts (d : StatusCounts) : Prop :=
  d.rejected + d.applied + d.interview + d.offer ≤ d.total

theorem applyRow_ok {d : StatusCounts} {status : String} {count : ℕ}
    (hst : strLower status ≠ "total") (hd : okCounts d) :
    okCounts (applyRow d status count) := by
  unfold okCounts at hd ⊢
  unfold applyRow
  simp only [if_neg hst]
  split_ifs <;> simp <;> omega

theorem upsert_ok {m : List (String × StatusCounts)} {key status : String} {count : ℕ}
    (hm : ∀ p ∈ m, okCounts p.2) (hst : strLower status ≠ "total") :
    ∀ p ∈ upsert m key status count, okCounts p.2 := by
  induction m with
  | nil =>
    intro p hp
    simp only [upsert, List.mem_singleton] at hp
    rw [hp]
    exact applyRow_ok hst (by simp [okCounts, StatusCounts.init])
  | cons kd rest ih =>
    intro p hp
    obtain ⟨k, d⟩ := kd
    by_cases hk : k = key
    · simp only [upsert, if_pos hk, List.mem_cons] at hp
      rcases hp with hp | hp
      · rw [hp]
        exact applyRow_ok hst (hm (k, d) (List.mem_cons_self _ _))
      · exact hm p (List.mem_cons_of_mem _ hp)
    · simp only [upsert, if_neg hk, List.mem_cons] at hp
      rcases hp with hp | hp
      · rw [hp]
        exact hm (k, d) (List.mem_cons_self _ _)
      · exact ih (fun q hq => hm q (List.mem_cons_of_mem _ hq)) p hp

theorem foldl_upsert_ok (rows : List (String × String × ℕ)) :
    ∀ (acc : List (String × StatusCounts)),
    (∀ row ∈ rows, strLower row.2.1 ≠ "total") →
    (∀ p ∈ acc, okCounts p.2) →
    ∀ p ∈ rows.foldl (fun m row => upsert m row.1 row.2.1 row.2.2) acc, okCounts p.2 := by
  induction rows with
  | nil => intro acc _ hacc p hp; exact hacc p hp
  | cons row rest ih =>
    intro acc hrows hacc p hp
    simp only [List.foldl_cons] at hp
    exact ih (upsert acc row.1 row.2.1 row.2.2)
      (fun q hq => hrows q (List.mem_cons_of_mem _ hq))
      (upsert_ok hacc (hrows row (List.mem_cons_self _ _))) p hp

theorem buildGroups_ok {rows : List (String × String × ℕ)}
    (hrows : ∀ row ∈ rows, strLower row.2.1 ≠ "total") :
    ∀ p ∈ buildGroups rows, okCounts p.2 :=
  foldl_upsert_ok rows [] hrows (by intro p hp; cases hp)

theorem roundPct_nonneg (n t : ℕ) : 0 ≤ roundPct n t := by
  unfold roundPct
  exact Int.ofNat_nonneg _

theorem roundPct_le_100 {n t : ℕ} (hn : n ≤ t) (ht : 0 < t) : roundPct n t ≤ 100 := by
  unfold roundPct
  have h : (200 * n + t) / (2 * t) ≤ 100 := by
    have h2 : 0 < 2 * t := by omega
    have := (Nat.div_lt_iff_lt_mul h2).mpr (show 200 * n + t < 101 * (2 * t) by omega)
    omega
  exact_mod_cast h

theorem mkSourceInsight_success (s : String) (d : StatusCounts) :
    (mkSourceInsight s d).successRate = 100 - (mkSourceInsight s d).rejectionRate := rfl

/-- C1: for every non-empty source group produced by the source-rejection
analyzer, `rejectionRate = round(rejected/total * 100)` and
`successRate = 100 - rejectionRate`, hence the two rates sum to `100`; a
zero-total group gets rate `0` instead of a division error. -/
theorem claim1 (records : List AppRecord) :
    ∀ i ∈ sourceInsights records,
      (0 < i.totalApplications →
        i.rejectionRate
          = jsRound ((i.rejectionCount : ℚ) / (i.totalApplications : ℚ) * 100)) ∧
      i.successRate = 100 - i.rejectionRate ∧
      i.rejectionRate + i.successRate = 100 ∧
      (i.totalApplications = 0 → i.rejectionRate = 0) := by
  intro i hi
  simp only [sourceInsights, List.mem_map] at hi
  obtain ⟨p, hp, hip⟩ := hi
  subst hip
  have hrr : (mkSourceInsight p.1 p.2).rejectionRate
      = (if 0 < p.2.total then roundPct p.2.rejected p.2.total else 0) := rfl
  have hsr : (mkSourceInsight p.1 p.2).successRate
      = 100 - (mkSourceInsight p.1 p.2).rejectionRate := rfl
  have htc : (mkSourceInsight p.1 p.2).totalApplications = p.2.total := rfl
  have hrc : (mkSourceInsight p.1 p.2).rejectionCount = p.2.rejected := rfl
  refine ⟨?_, hsr, by rw [hsr]; ring, ?_⟩
  · intro hpos
    rw [htc] at hpos
    rw [hrr, if_pos hpos, htc, hrc]
    exact roundPct_spec _ _ hpos
  · intro h0
    rw [htc] at h0
    rw [hrr, if_neg (by omega)]

/-- Witness for C1 at scenario A (two LinkedIn records, one rejected). -/
theorem claim1_witness :
    ((0 : ℕ) < 2 →
      (50 : ℤ) = jsRound ((((1 : ℕ) : ℚ)) / (((2 : ℕ) : ℚ)) * 100)) ∧
    (50 : ℤ) = 100 - 50 ∧ (50 : ℤ) + 50 = 100 ∧ ((2 : ℕ) = 0 → (50 : ℤ) = 0) :=
  claim1
    [⟨"c", "r", "Rejected", "LinkedIn", "1.0", 0⟩,
     ⟨"c", "r", "Applied", "LinkedIn", "1.0", 0⟩]
    ⟨"LinkedIn", 2, 50, 1, 50⟩ (by decide)

/-- C2: every non-empty resume-version group gets
`successRate = round((interview + offer)/total * 100)`, computed
independently of `rejectionRate = round(rejected/total * 100)`; one Offer
plus one Rejected record yields successRate 50 and rejectionRate 50, and the
two rates need not sum to 100 (one Applied plus one Offer gives 0 + 50). -/
theorem claim2 :
    (∀ (records : List AppRecord),
      ∀ p ∈ buildGroups (sqlGroupRows (fun r => r.resumeVersion) records),
        0 < p.2.total →
        (mkVersionInsight p.1 p.2).successRate
          = jsRound (((p.2.interview + p.2.offer : ℕ) : ℚ) / (p.2.total : ℚ) * 100) ∧
        (mkVersionInsight p.1 p.2).rejectionRate
          = jsRound (((p.2.rejected : ℕ) : ℚ) / (p.2.total : ℚ) * 100)) ∧
    versionInsights
        [⟨"c", "r", "Offer", "S", "1.0", 0⟩, ⟨"c", "r", "Rejected", "S", "1.0", 0⟩]
      = [⟨"1.0", 2, 50, 50, 0, 50⟩] ∧
    versionInsights
        [⟨"c", "r", "Applied", "S", "1.0", 0⟩, ⟨"c", "r", "Offer", "S", "1.0", 0⟩]
      = [⟨"1.0", 2, 0, 50, 0, 50⟩] ∧
    ((⟨"1.0", 2, 0, 50, 0, 50⟩ : VersionInsight).rejectionRate
      + (⟨"1.0", 2, 0, 50, 0, 50⟩ : VersionInsight).successRate ≠ 100) := by
  refine ⟨?_, by decide, by decide, by decide⟩
  intro records p hp ht
  have hs : (mkVersionInsight p.1 p.2).successRate
      = (if 0 < p.2.total then roundPct (p.2.interview + p.2.offer) p.2.total else 0) := rfl
  have hr : (mkVersionInsight p.1 p.2).rejectionRate
      = (if 0 < p.2.total then roundPct p.2.rejected p.2.total else 0) := rfl
  rw [hs, hr, if_pos ht, if_pos ht]
  exact ⟨roundPct_spec _ _ ht, roundPct_spec _ _ ht⟩

/-- Witness for C2 at scenario B (the version-"1.0" group with one Offer
and one Rejected record). -/
theorem claim2_witness :
    (mkVersionInsight "1.0" ⟨2, 1, 0, 0, 1⟩).successRate
      = jsRound ((((0 + 1 : ℕ) : ℚ)) / (((2 : ℕ) : ℚ)) * 100) ∧
    (mkVersionInsight "1.0" ⟨2, 1, 0, 0, 1⟩).rejectionRate
      = jsRound ((((1 : ℕ) : ℚ)) / (((2 : ℕ) : ℚ)) * 100) :=
  claim2.1
    [⟨"c", "r", "Offer", "S", "1.0", 0⟩, ⟨"c", "r", "Rejected", "S", "1.0", 0⟩]
    ("1.0", ⟨2, 1, 0, 0, 1⟩) (by decide) (by decide)

/-- C10: the source-rejection analyzer returns its per-source rates as
percent-suffixed strings (the string rendering of the numeric rates), while
the resume-version analyzer returns its rates as plain integers (the
unmodified numeric `versionInsights`). -/
theorem claim10 (records : List AppRecord) :
    (∀ i ∈ (getRejectionRateBySource records).insights,
      ∃ n : ℤ, i.rejectionRate = toString n ++ "%" ∧
        i.successRate = toString (100 - n) ++ "%") ∧
    (getRejectionRateBySource records).insights
      = (sourceInsights records).map stringifyInsight ∧
    (getBestPerformingResumeVersion records).versions = versionInsights records := by
  refine ⟨?_, rfl, rfl⟩
  intro i hi
  have hi2 : i ∈ (sourceInsights records).map stringifyInsight := hi
  simp only [List.mem_map] at hi2
  obtain ⟨j, hj, hij⟩ := hi2
  simp only [sourceInsights, List.mem_map] at hj
  obtain ⟨p, hp, hjp⟩ := hj
  refine ⟨j.rejectionRate, ?_, ?_⟩
  · rw [← hij]; rfl
  · rw [← hij]
    have hs : j.successRate = 100 - j.rejectionRate := by
      rw [← hjp]; exact mkSourceInsight_success p.1 p.2
    simp only [stringifyInsight, hs]

/-- Witness for C10 at scenario A. -/
theorem claim10_witness :
    ∃ n : ℤ, ("50%" : String) = toString n ++ "%" ∧
      ("50%" : String) = toString (100 - n) ++ "%" :=
  (claim10
    [⟨"c", "r", "Rejected", "LinkedIn", "1.0", 0⟩,
     ⟨"c", "r", "Applied", "LinkedIn", "1.0", 0⟩]).1
    ⟨"LinkedIn", 2, "50%", 1, "50%"⟩ (by decide)

/-- Counterexample to C4: on a snapshot whose only source group has
rejection rate 0, the `highestRejection` reduce keeps the sentinel object
`{ rejectionRate: 0 }` (which has no `source`), not the first group. -/
theorem claim4_counterexample :
    sourceInsights [⟨"c", "r", "Applied", "A", "1.0", 0⟩] = [⟨"A", 1, 0, 0, 100⟩] ∧
    highestRejection (sourceInsights [⟨"c", "r", "Applied", "A", "1.0", 0⟩])
      = Sel.sentinel ∧
    (Sel.sentinel : Sel SourceInsight) ≠ Sel.found ⟨"A", 1, 0, 0, 100⟩ := by
  refine ⟨by decide, by decide, by decide⟩

/-- C4 (amended): `highestRejection` is a fold-left with strict greater-than
from the sentinel `{ rejectionRate: 0 }`; when the rate of some group is positive
it selects the first-encountered group attaining the maximum rate
(first-encountered wins all ties), but when the rate of every group is 0 it
returns the sentinel (whose `source` is undefined), not the first group. -/
theorem claim4 (records : List AppRecord) :
    ((∀ i ∈ sourceInsights records, i.rejectionRate = 0) →
      highestRejection (sourceInsights records) = Sel.sentinel) ∧
    ((∃ i ∈ sourceInsights records, 0 < i.rejectionRate) →
      ∃ pre i post, sourceInsights records = pre ++ i :: post ∧
        highestRejection (sourceInsights records) = Sel.found i ∧
        0 < i.rejectionRate ∧
        (∀ j ∈ pre, j.rejectionRate < i.rejectionRate) ∧
        (∀ j ∈ sourceInsights records, j.rejectionRate ≤ i.rejectionRate)) := by
  constructor
  · intro hall
    apply jsReduceSel_sentinel
    intro x hx
    rw [gtB_false_iff, hall x hx]
  · intro hex
    obtain ⟨pre, i, post, heq, hfold, hsent, hpre, hall⟩ :=
      jsReduceSel_found (fun i => i.rejectionRate) gtB 0 (sourceInsights records)
        (fun a b c h1 h2 =>
          gtB_true_iff.mpr (lt_trans (gtB_true_iff.mp h2) (gtB_true_iff.mp h1)))
        (fun a b h => gtB_false_iff.mpr (le_of_lt (gtB_true_iff.mp h)))
        (fun a b c h1 h2 =>
          gtB_true_iff.mpr (lt_of_le_of_lt (gtB_false_iff.mp h2) (gtB_true_iff.mp h1)))
        (by obtain ⟨i0, hi0, h0⟩ := hex; exact ⟨i0, hi0, gtB_true_iff.mpr h0⟩)
    refine ⟨pre, i, post, heq, hfold, gtB_true_iff.mp hsent, ?_, ?_⟩
    · intro j hj
      exact gtB_true_iff.mp (hpre j hj)
    · intro j hj
      exact gtB_false_iff.mp (hall j hj)

/-- Witness for C4 (amended): the all-zero branch at one Applied record, and
the positive branch at one Rejected record. -/
theorem claim4_witness :
    highestRejection (sourceInsights [⟨"c", "r", "Applied", "Z", "1.0", 0⟩])
      = Sel.sentinel ∧
    (∃ pre i post,
      sourceInsights [⟨"c", "r", "Rejected", "Z", "1.0", 0⟩] = pre ++ i :: post ∧
      highestRejection (sourceInsights [⟨"c", "r", "Rejected", "Z", "1.0", 0⟩])
        = Sel.found i ∧
      0 < i.rejectionRate ∧
      (∀ j ∈ pre, j.rejectionRate < i.rejectionRate) ∧
      (∀ j ∈ sourceInsights [⟨"c", "r", "Rejected", "Z", "1.0", 0⟩],
        j.rejectionRate ≤ i.rejectionRate)) :=
  ⟨(claim4 [⟨"c", "r", "Applied", "Z", "1.0", 0⟩]).1 (by decide),
   (claim4 [⟨"c", "r", "Rejected", "Z", "1.0", 0⟩]).2 (by decide)⟩

/-- Counterexample to C5: with two sources that are both always rejected
(a tie at the minimum rate 100), the `lowestRejection` reduce keeps the
sentinel `{ rejectionRate: 100 }` instead of the first-encountered source. -/
theorem claim5_counterexample :
    sourceInsights
        [⟨"c", "r", "Rejected", "A", "1.0", 0⟩, ⟨"c", "r", "Rejected", "B", "1.0", 0⟩]
      = [⟨"A", 1, 100, 1, 0⟩, ⟨"B", 1, 100, 1, 0⟩] ∧
    lowestRejection (sourceInsights
        [⟨"c", "r", "Rejected", "A", "1.0", 0⟩, ⟨"c", "r", "Rejected", "B", "1.0", 0⟩])
      = Sel.sentinel ∧
    (Sel.sentinel : Sel SourceInsight) ≠ Sel.found ⟨"A", 1, 100, 1, 0⟩ := by
  refine ⟨by decide, by decide, by decide⟩

/-- C5 (amended): `lowestRejection` is a fold-left with strict less-than from
the sentinel `{ rejectionRate: 100 }`; whenever the rate of some group is below
100 (in particular whenever a source has 0 rejections) it selects the
first-encountered group attaining the minimum rate (first-encountered wins
all ties), but when every rate equals 100 it returns the sentinel. -/
theorem claim5 (records : List AppRecord) :
    ((∀ i ∈ sourceInsights records, 100 ≤ i.rejectionRate) →
      lowestRejection (sourceInsights records) = Sel.sentinel) ∧
    ((∃ i ∈ sourceInsights records, i.rejectionRate < 100) →
      ∃ pre i post, sourceInsights records = pre ++ i :: post ∧
        lowestRejection (sourceInsights records) = Sel.found i ∧
        i.rejectionRate < 100 ∧
        (∀ j ∈ pre, i.rejectionRate < j.rejectionRate) ∧
        (∀ j ∈ sourceInsights records, i.rejectionRate ≤ j.rejectionRate)) := by
  constructor
  · intro hall
    apply jsReduceSel_sentinel
    intro x hx
    rw [ltB_false_iff]
    exact hall x hx
  · intro hex
    obtain ⟨pre, i, post, heq, hfold, hsent, hpre, hall⟩ :=
      jsReduceSel_found (fun i => i.rejectionRate) ltB 100 (sourceInsights records)
        (fun a b c h1 h2 =>
          ltB_true_iff.mpr (lt_trans (ltB_true_iff.mp h1) (ltB_true_iff.mp h2)))
        (fun a b h => ltB_false_iff.mpr (le_of_lt (ltB_true_iff.mp h)))
        (fun a b c h1 h2 =>
          ltB_true_iff.mpr (lt_of_lt_of_le (ltB_true_iff.mp h1) (ltB_false_iff.mp h2)))
        (by obtain ⟨i0, hi0, h0⟩ := hex; exact ⟨i0, hi0, ltB_true_iff.mpr h0⟩)
    refine ⟨pre, i, post, heq, hfold, ltB_true_iff.mp hsent, ?_, ?_⟩
    · intro j hj
      exact ltB_true_iff.mp (hpre j hj)
    · intro j hj
      exact ltB_false_iff.mp (hall j hj)

/-- Witness for C5 (amended): the all-100 branch at one always-rejected
record, and the below-100 branch at the scenario named in the claim, two sources
that both have 0 rejections. -/
theorem claim5_witness :
    lowestRejection (sourceInsights [⟨"c", "r", "Rejected", "Z", "1.0", 0⟩])
      = Sel.sentinel ∧
    (∃ pre i post,
      sourceInsights
          [⟨"c", "r", "Applied", "A", "1.0", 0⟩, ⟨"c", "r", "Applied", "B", "1.0", 0⟩]
        = pre ++ i :: post ∧
      lowestRejection (sourceInsights
          [⟨"c", "r", "Applied", "A", "1.0", 0⟩, ⟨"c", "r", "Applied", "B", "1.0", 0⟩])
        = Sel.found i ∧
      i.rejectionRate < 100 ∧
      (∀ j ∈ pre, i.rejectionRate < j.rejectionRate) ∧
      (∀ j ∈ sourceInsights
          [⟨"c", "r", "Applied", "A", "1.0", 0⟩, ⟨"c", "r", "Applied", "B", "1.0", 0⟩],
        i.rejectionRate ≤ j.rejectionRate)) :=
  ⟨(claim5 [⟨"c", "r", "Rejected", "Z", "1.0", 0⟩]).1 (by decide),
   (claim5 [⟨"c", "r", "Applied", "A", "1.0", 0⟩,
            ⟨"c", "r", "Applied", "B", "1.0", 0⟩]).2 (by decide)⟩

/-- Counterexample to C6: source "A" has numeric success rate 80 and source
"B" has 9, yet the Key-Findings reduce compares the percent strings with
JavaScript string order, where `"9%" > "80%"`, so source "B" is named best
although its success rate is not maximal. -/
theorem claim6_counterexample :
    sourceInsights
        [⟨"c", "r", "Rejected", "A", "1.0", 0⟩, ⟨"c", "r", "Applied", "A", "1.0", 0⟩,
         ⟨"c", "r", "Applied", "A", "1.0", 0⟩, ⟨"c", "r", "Applied", "A", "1.0", 0⟩,
         ⟨"c", "r", "Applied", "A", "1.0", 0⟩,
         ⟨"c", "r", "Rejected", "B", "1.0", 0⟩, ⟨"c", "r", "Rejected", "B", "1.0", 0⟩,
         ⟨"c", "r", "Rejected", "B", "1.0", 0⟩, ⟨"c", "r", "Rejected", "B", "1.0", 0⟩,
         ⟨"c", "r", "Rejected", "B", "1.0", 0⟩, ⟨"c", "r", "Rejected", "B", "1.0", 0⟩,
         ⟨"c", "r", "Rejected", "B", "1.0", 0⟩, ⟨"c", "r", "Rejected", "B", "1.0", 0⟩,
         ⟨"c", "r", "Rejected", "B", "1.0", 0⟩, ⟨"c", "r", "Rejected", "B", "1.0", 0⟩,
         ⟨"c", "r", "Applied", "B", "1.0", 0⟩]
      = [⟨"A", 5, 20, 1, 80⟩, ⟨"B", 11, 91, 10, 9⟩] ∧
    keyFindingsBestSource
        (getRejectionRateBySource
          [⟨"c", "r", "Rejected", "A", "1.0", 0⟩, ⟨"c", "r", "Applied", "A", "1.0", 0⟩,
           ⟨"c", "r", "Applied", "A", "1.0", 0⟩, ⟨"c", "r", "Applied", "A", "1.0", 0⟩,
           ⟨"c", "r", "Applied", "A", "1.0", 0⟩,
           ⟨"c", "r", "Rejected", "B", "1.0", 0⟩, ⟨"c", "r", "Rejected", "B", "1.0", 0⟩,
           ⟨"c", "r", "Rejected", "B", "1.0", 0⟩, ⟨"c", "r", "Rejected", "B", "1.0", 0⟩,
           ⟨"c", "r", "Rejected", "B", "1.0", 0⟩, ⟨"c", "r", "Rejected", "B", "1.0", 0⟩,
           ⟨"c", "r", "Rejected", "B", "1.0", 0⟩, ⟨"c", "r", "Rejected", "B", "1.0", 0⟩,
           ⟨"c", "r", "Rejected", "B", "1.0", 0⟩, ⟨"c", "r", "Rejected", "B", "1.0", 0⟩,
           ⟨"c", "r", "Applied", "B", "1.0", 0⟩]).insights
      = Sel.found ⟨"B", 11, "91%", 10, "9%"⟩ ∧
    ((9 : ℤ) < 80) := by
  refine ⟨by decide, by decide, by decide⟩

/-- C6 (amended): the Key-Findings best-source reduce runs over the
percent-suffixed rate strings with JavaScript string comparison (fold-left,
strict `>`, sentinel `{ successRate: "0%" }`): it selects the
first-encountered insight whose `successRate` string is lexicographically
maximal (when any beats `"0%"`), which need not be the numerically best
source; if no string beats `"0%"` the sentinel is kept. -/
theorem claim6 (records : List AppRecord) :
    ((∀ i ∈ (getRejectionRateBySource records).insights,
        strGtB i.successRate "0%" = false) →
      keyFindingsBestSource (getRejectionRateBySource records).insights
        = Sel.sentinel) ∧
    ((∃ i ∈ (getRejectionRateBySource records).insights,
        strGtB i.successRate "0%" = true) →
      ∃ pre i post, (getRejectionRateBySource records).insights = pre ++ i :: post ∧
        keyFindingsBestSource (getRejectionRateBySource records).insights
          = Sel.found i ∧
        strGtB i.successRate "0%" = true ∧
        (∀ j ∈ pre, strGtB i.successRate j.successRate = true) ∧
        (∀ j ∈ (getRejectionRateBySource records).insights,
          strGtB j.successRate i.successRate = false)) := by
  constructor
  · intro hall
    exact jsReduceSel_sentinel _ _ _ _ hall
  · intro hex
    exact jsReduceSel_found (fun i => i.successRate) strGtB "0%"
      (getRejectionRateBySource records).insights
      (fun a b c h1 h2 => strGtB_trans _ _ c h1 h2)
      (fun a b h => strGtB_asym _ _ h)
      (fun a b c h1 h2 => strGtB_m _ _ c h1 h2)
      hex

/-- Witness for C6 (amended) at scenario A: the string of the single source,
`"50%"` beats the sentinel string `"0%"`. -/
theorem claim6_witness :
    ∃ pre i post,
      (getRejectionRateBySource
          [⟨"c", "r", "Rejected", "LinkedIn", "1.0", 0⟩,
           ⟨"c", "r", "Applied", "LinkedIn", "1.0", 0⟩]).insights
        = pre ++ i :: post ∧
      keyFindingsBestSource
          (getRejectionRateBySource
            [⟨"c", "r", "Rejected", "LinkedIn", "1.0", 0⟩,
             ⟨"c", "r", "Applied", "LinkedIn", "1.0", 0⟩]).insights
        = Sel.found i ∧
      strGtB i.successRate "0%" = true ∧
      (∀ j ∈ pre, strGtB i.successRate j.successRate = true) ∧
      (∀ j ∈ (getRejectionRateBySource
          [⟨"c", "r", "Rejected", "LinkedIn", "1.0", 0⟩,
           ⟨"c", "r", "Applied", "LinkedIn", "1.0", 0⟩]).insights,
        strGtB j.successRate i.successRate = false) :=
  (claim6 [⟨"c", "r", "Rejected", "LinkedIn", "1.0", 0⟩,
           ⟨"c", "r", "Applied", "LinkedIn", "1.0", 0⟩]).2 (by decide)

theorem jsLtInfB_some_some_true {a b : ℤ} : jsLtInfB (some a) (some b) = true ↔ a < b := by
  simp [jsLtInfB]

theorem jsLtInfB_some_some_false {a b : ℤ} : jsLtInfB (some a) (some b) = false ↔ b ≤ a := by
  simp [jsLtInfB]

/-- Counterexample to C7: one Rejected record applied today gives the single
average entry `("Rejected", 0)`; since `0 > 0` is false, the slowest-response
reduce keeps the sentinel `{ status: '', avg: 0 }`, whose status names no
present group, instead of the maximal-average status `"Rejected"`. -/
theorem claim7_counterexample :
    avgEntries (responseApps 0 [⟨"c", "r", "Rejected", "S", "1.0", 0⟩])
      = [("Rejected", 0)] ∧
    slowestResponse [("Rejected", 0)] = Sel.sentinel ∧
    (Sel.sentinel : Sel (String × ℤ)) ≠ Sel.found ("Rejected", 0) := by
  refine ⟨?_, by decide, by decide⟩
  simp [avgEntries, responseApps, statusDays, sortBy, insertSorted, jsRound]
  norm_num [Int.floor_eq_iff]

/-- C7 (amended): a terminal status with no records is omitted from
`averages` entirely; the fastest selection always returns the
first-encountered minimal-average entry of a non-empty `averages`; the
slowest selection returns the first-encountered maximal-average entry
provided some average is positive, and otherwise (all averages at most 0,
e.g. a single same-day rejection) keeps the sentinel with empty status; a
single Interview record applied 10 days ago yields
`averages.Interview == 10` with fastest and slowest both Interview. -/
theorem claim7 :
    (∀ (now : ℚ) (records : List AppRecord) (status : String) (v : ℤ),
      statusDays status (responseApps now records) = [] →
      (status, v) ∉ avgEntries (responseApps now records)) ∧
    (∀ avgs : List (String × ℤ), avgs ≠ [] →
      ∃ pre e post, avgs = pre ++ e :: post ∧
        fastestResponse avgs = Sel.found e ∧
        (∀ j ∈ pre, e.2 < j.2) ∧ (∀ j ∈ avgs, e.2 ≤ j.2)) ∧
    (∀ avgs : List (String × ℤ), (∃ j ∈ avgs, 0 < j.2) →
      ∃ pre e post, avgs = pre ++ e :: post ∧
        slowestResponse avgs = Sel.found e ∧ 0 < e.2 ∧
        (∀ j ∈ pre, j.2 < e.2) ∧ (∀ j ∈ avgs, j.2 ≤ e.2)) ∧
    (∀ avgs : List (String × ℤ), (∀ j ∈ avgs, j.2 ≤ 0) →
      slowestResponse avgs = Sel.sentinel) ∧
    (avgEntries (responseApps 10 [⟨"c", "r", "Interview", "S", "1.0", 0⟩])
        = [("Interview", 10)] ∧
      fastestResponse [("Interview", 10)] = Sel.found ("Interview", 10) ∧
      slowestResponse [("Interview", 10)] = Sel.found ("Interview", 10)) := by
  refine ⟨?_, ?_, ?_, ?_, ?_, by decide, by decide⟩
  · intro now records status v hempty hmem
    simp only [avgEntries, List.mem_filterMap] at hmem
    obtain ⟨s0, hs0, heq⟩ := hmem
    by_cases hg : 0 < (statusDays s0 (responseApps now records)).length
    · rw [if_pos hg] at heq
      have hs : s0 = status := (Prod.mk.injEq _ _ _ _).mp (Option.some.inj heq) |>.1
      rw [hs, hempty] at hg
      exact absurd hg (by simp)
    · rw [if_neg hg] at heq
      cases heq
  · intro avgs hne
    obtain ⟨x, hx⟩ := List.exists_mem_of_ne_nil avgs hne
    obtain ⟨pre, e, post, heq, hfold, hsent, hpre, hall⟩ :=
      jsReduceSel_found (fun e => some e.2) jsLtInfB none avgs
        (fun a b c h1 h2 => by
          cases c with
          | none => rfl
          | some cv =>
            exact jsLtInfB_some_some_true.mpr
              (lt_trans (jsLtInfB_some_some_true.mp h1) (jsLtInfB_some_some_true.mp h2)))
        (fun a b h =>
          jsLtInfB_some_some_false.mpr (le_of_lt (jsLtInfB_some_some_true.mp h)))
        (fun a b c h1 h2 => by
          cases c with
          | none => simp [jsLtInfB] at h2
          | some cv =>
            exact jsLtInfB_some_some_true.mpr
              (lt_of_lt_of_le (jsLtInfB_some_some_true.mp h1)
                (jsLtInfB_some_some_false.mp h2)))
        ⟨x, hx, rfl⟩
    refine ⟨pre, e, post, heq, hfold, ?_, ?_⟩
    · intro j hj
      exact jsLtInfB_some_some_true.mp (hpre j hj)
    · intro j hj
      exact jsLtInfB_some_some_false.mp (hall j hj)
  · intro avgs hex
    obtain ⟨pre, e, post, heq, hfold, hsent, hpre, hall⟩ :=
      jsReduceSel_found (fun e => e.2) gtB 0 avgs
        (fun a b c h1 h2 =>
          gtB_true_iff.mpr (lt_trans (gtB_true_iff.mp h2) (gtB_true_iff.mp h1)))
        (fun a b h => gtB_false_iff.mpr (le_of_lt (gtB_true_iff.mp h)))
        (fun a b c h1 h2 =>
          gtB_true_iff.mpr (lt_of_le_of_lt (gtB_false_iff.mp h2) (gtB_true_iff.mp h1)))
        (by obtain ⟨j, hj, h0⟩ := hex; exact ⟨j, hj, gtB_true_iff.mpr h0⟩)
    refine ⟨pre, e, post, heq, hfold, gtB_true_iff.mp hsent, ?_, ?_⟩
    · intro j hj
      exact gtB_true_iff.mp (hpre j hj)
    · intro j hj
      exact gtB_false_iff.mp (hall j hj)
  · intro avgs hall
    apply jsReduceSel_sentinel
    intro x hx
    rw [gtB_false_iff]
    exact hall x hx
  · simp [avgEntries, responseApps, statusDays, sortBy, insertSorted, jsRound]
    norm_num [Int.floor_eq_iff]

/-- Witness for C7 (amended): absence of the Offer key for a snapshot with
one Interview record, and the fastest/slowest branches at concrete average
lists. -/
theorem claim7_witness :
    ("Offer", (5 : ℤ)) ∉
      avgEntries (responseApps 0 [⟨"c", "r", "Interview", "S", "1.0", 0⟩]) ∧
    (∃ pre e post, ([("Interview", (10 : ℤ))] : List (String × ℤ)) = pre ++ e :: post ∧
      fastestResponse [("Interview", 10)] = Sel.found e ∧
      (∀ j ∈ pre, e.2 < j.2) ∧ (∀ j ∈ ([("Interview", (10 : ℤ))] : List (String × ℤ)), e.2 ≤ j.2)) ∧
    (∃ pre e post, ([("Interview", (10 : ℤ))] : List (String × ℤ)) = pre ++ e :: post ∧
      slowestResponse [("Interview", 10)] = Sel.found e ∧ 0 < e.2 ∧
      (∀ j ∈ pre, j.2 < e.2) ∧ (∀ j ∈ ([("Interview", (10 : ℤ))] : List (String × ℤ)), j.2 ≤ e.2)) ∧
    slowestResponse [("Rejected", 0)] = Sel.sentinel :=
  ⟨claim7.1 0 [⟨"c", "r", "Interview", "S", "1.0", 0⟩] "Offer" 5
      (by simp [statusDays, responseApps, sortBy, insertSorted]),
   claim7.2.1 [("Interview", 10)] (by decide),
   claim7.2.2.1 [("Interview", 10)] (by decide),
   claim7.2.2.2.1 [("Rejected", 0)] (by decide)⟩

/-- Counterexample to C8: a record whose status is `"Total"` lower-cases to
the accumulator key `total` and clobbers the accumulated total, producing
a rejection rate of 200 and a success rate of -100, both outside [0, 100]. -/
theorem claim8_counterexample :
    sourceInsights
        [⟨"c", "r", "Rejected", "S", "1.0", 0⟩, ⟨"c", "r", "Rejected", "S", "1.0", 0⟩,
         ⟨"c", "r", "Total", "S", "1.0", 0⟩]
      = [⟨"S", 1, 200, 2, -100⟩] ∧
    ¬ ((200 : ℤ) ≤ 100) ∧ ¬ ((0 : ℤ) ≤ (-100 : ℤ)) := by
  refine ⟨by decide, by decide, by decide⟩

/-- C8 (amended): for every record set in which no status lower-cases to the
reserved accumulator key `"total"` (true of the five data-model statuses),
every rate computed by the grouping analyzers lies in [0, 100]. -/
theorem claim8 (records : List AppRecord)
    (hclean : ∀ r ∈ records, strLower r.status ≠ "total") :
    (∀ i ∈ sourceInsights records,
      0 ≤ i.rejectionRate ∧ i.rejectionRate ≤ 100 ∧
      0 ≤ i.successRate ∧ i.successRate ≤ 100) ∧
    (∀ v ∈ versionInsights records,
      0 ≤ v.rejectionRate ∧ v.rejectionRate ≤ 100 ∧
      0 ≤ v.successRate ∧ v.successRate ≤ 100 ∧
      0 ≤ v.interviewRate ∧ v.interviewRate ≤ 100 ∧
      0 ≤ v.offerRate ∧ v.offerRate ≤ 100) := by
  constructor
  · intro i hi
    simp only [sourceInsights, List.mem_map] at hi
    obtain ⟨p, hp, hip⟩ := hi
    have hok : okCounts p.2 := buildGroups_ok
      (fun row hrow => by
        obtain ⟨r, hr, hst⟩ := mem_sqlGroupRows_status hrow
        rw [← hst]
        exact hclean r hr) p hp
    subst hip
    have hrr : (mkSourceInsight p.1 p.2).rejectionRate
        = (if 0 < p.2.total then roundPct p.2.rejected p.2.total else 0) := rfl
    have hsr : (mkSourceInsight p.1 p.2).successRate
        = 100 - (mkSourceInsight p.1 p.2).rejectionRate := rfl
    rw [hsr, hrr]
    by_cases ht : 0 < p.2.total
    · rw [if_pos ht]
      have h1 := roundPct_nonneg p.2.rejected p.2.total
      have h2 := roundPct_le_100 (show p.2.rejected ≤ p.2.total by
        unfold okCounts at hok; omega) ht
      exact ⟨h1, h2, by omega, by omega⟩
    · rw [if_neg ht]
      refine ⟨le_refl 0, by omega, by omega, by omega⟩
  · intro v hv
    simp only [versionInsights, List.mem_map] at hv
    obtain ⟨p, hp, hvp⟩ := hv
    have hok : okCounts p.2 := buildGroups_ok
      (fun row hrow => by
        obtain ⟨r, hr, hst⟩ := mem_sqlGroupRows_status hrow
        rw [← hst]
        exact hclean r hr) p hp
    subst hvp
    unfold okCounts at hok
    have hrr : (mkVersionInsight p.1 p.2).rejectionRate
        = (if 0 < p.2.total then roundPct p.2.rejected p.2.total else 0) := rfl
    have hsr : (mkVersionInsight p.1 p.2).successRate
        = (if 0 < p.2.total then roundPct (p.2.interview + p.2.offer) p.2.total else 0) := rfl
    have hir : (mkVersionInsight p.1 p.2).interviewRate
        = (if 0 < p.2.total then roundPct p.2.interview p.2.total else 0) := rfl
    have hor : (mkVersionInsight p.1 p.2).offerRate
        = (if 0 < p.2.total then roundPct p.2.offer p.2.total else 0) := rfl
    rw [hrr, hsr, hir, hor]
    by_cases ht : 0 < p.2.total
    · rw [if_pos ht, if_pos ht, if_pos ht, if_pos ht]
      exact ⟨roundPct_nonneg _ _,
        roundPct_le_100 (by omega) ht,
        roundPct_nonneg _ _,
        roundPct_le_100 (by omega) ht,
        roundPct_nonneg _ _,
        roundPct_le_100 (by omega) ht,
        roundPct_nonneg _ _,
        roundPct_le_100 (by omega) ht⟩
    · rw [if_neg ht, if_neg ht, if_neg ht, if_neg ht]
      refine ⟨le_refl 0, by omega, le_refl 0, by omega, le_refl 0, by omega,
        le_refl 0, by omega⟩

/-- Witness for C8 (amended) at scenario A (statuses Rejected and Applied,
none of which lower-cases to `"total"`). -/
theorem claim8_witness :
    ((0 : ℤ) ≤ 50 ∧ (50 : ℤ) ≤ 100 ∧ (0 : ℤ) ≤ 50 ∧ (50 : ℤ) ≤ 100) ∧
    ((0 : ℤ) ≤ 50 ∧ (50 : ℤ) ≤ 100 ∧ (0 : ℤ) ≤ 0 ∧ (0 : ℤ) ≤ 100 ∧
      (0 : ℤ) ≤ 0 ∧ (0 : ℤ) ≤ 100 ∧ (0 : ℤ) ≤ 0 ∧ (0 : ℤ) ≤ 100) :=
  ⟨(claim8
      [⟨"c", "r", "Rejected", "LinkedIn", "1.0", 0⟩,
       ⟨"c", "r", "Applied", "LinkedIn", "1.0", 0⟩] (by decide)).1
      ⟨"LinkedIn", 2, 50, 1, 50⟩ (by decide),
   (claim8
      [⟨"c", "r", "Rejected", "LinkedIn", "1.0", 0⟩,
       ⟨"c", "r", "Applied", "LinkedIn", "1.0", 0⟩] (by decide)).2
      ⟨"1.0", 2, 50, 0, 0, 0⟩ (by decide)⟩

/-- Counterexample to C3: on the empty snapshot the response-time analyzer
returns an object with no `averages` property at all (`undefined`), which is
not the empty map `{}`. -/
theorem claim3_counterexample :
    (getAverageResponseTime 0 []).averages = none ∧
    (getAverageResponseTime 0 []).averages ≠ some ([] : List (String × ℤ)) := by
  exact ⟨rfl, by decide⟩

set_option maxRecDepth 40000 in
/-- C3 (amended): on an empty record set no analyzer throws: source and
resume analyzers return empty aggregate lists with a no-data narrative, and
the response-time analyzer returns a result without any `averages` field
(absent, not the empty map) whose narrative states that no completed
applications were found. -/
theorem claim3 (now : ℚ) :
    (getRejectionRateBySource []).insights = [] ∧
    ("No application data available for analysis.").data
      <:+: (getRejectionRateBySource []).summary.data ∧
    (getBestPerformingResumeVersion []).versions = [] ∧
    ("No resume version data available for analysis.").data
      <:+: (getBestPerformingResumeVersion []).summary.data ∧
    (getAverageResponseTime now []).averages = none ∧
    ("No completed applications").data
      <:+: (getAverageResponseTime now []).summary.data ∧
    (getRejectionRateBySource []).success = true ∧
    (getBestPerformingResumeVersion []).success = true ∧
    (getAverageResponseTime now []).success = true := by
  have hsum : (getAverageResponseTime now []).summary
      = "📊 **Response Time Analysis**: No completed applications (Interview/Offer/Rejected) found in the database." := rfl
  refine ⟨by decide, by decide, by decide, by decide, rfl, ?_, by decide, by decide, rfl⟩
  rw [hsum]
  decide

/-- A value polluted onto `Object.prototype` by the grouping loop: either
`NaN` (from `undefined + count` in `.total += count`) or a number (from
`[status.toLowerCase()] = count` or a later numeric `+= count`). -/
inductive ProtoVal where
  | nan : ProtoVal
  | num : ℕ → ProtoVal
deriving DecidableEq

/-- Set an own property of `Object.prototype` (overwriting, preserving
insertion order). -/
def protoSet (st : List (String × ProtoVal)) (k : String) (v : ProtoVal) :
    List (String × ProtoVal) :=
  match st with
  | [] => [(k, v)]
  | (k2, v2) :: rest => if k2 = k then (k2, v) :: rest else (k2, v2) :: protoSet rest k v

/-- The built-in own properties of `Object.prototype` in Node.js (all
function-valued, hence truthy; the accessor `__proto__` is handled
separately). -/
def protoBuiltins : List String :=
  ["constructor", "hasOwnProperty", "isPrototypeOf", "propertyIsEnumerable",
   "toLocaleString", "toString", "valueOf", "__defineGetter__", "__defineSetter__",
   "__lookupGetter__", "__lookupSetter__"]

/-- A group label that cannot hit the prototype chain of the fresh
accumulator object: neither the accessor key `__proto__` nor a built-in
`Object.prototype` property name. -/
def safeKey (k : String) : Bool :=
  !(k == "__proto__") && !(protoBuiltins.contains k)

/-- State of one grouping loop: the own properties of the accumulator object
(`sourceData` / `versionData`) plus the global own properties of
`Object.prototype`. -/
structure GroupEnv where
  own : List (String × StatusCounts)
  proto : List (String × ProtoVal)
deriving DecidableEq

/-- Full JavaScript semantics of one iteration of the grouping `forEach`
(the class body is strict mode):
`if (!sourceData[key]) sourceData[key] = init; sourceData[key].total += count;
sourceData[key][status.toLowerCase()] = count`.
The lookup `sourceData[key]` resolves through the prototype chain: an own
group object is updated; the key `__proto__` yields `Object.prototype`
itself (truthy, so initialization is skipped) and the two assignments write
its `total` (as `NaN`) and the lower-cased status globally; a key whose
inherited value is a truthy number skips initialization and then raises a
TypeError on the member assignment to a primitive; a falsy inherited value
(`NaN` or `0`) and an absent key initialize an own group as usual; a key
naming a built-in function property skips initialization and writes onto
that function object, which this program never reads, and the group never
becomes an own key. -/
def applyRowJs (env : GroupEnv) (key status : String) (count : ℕ) :
    Except Unit GroupEnv :=
  if (List.lookup key env.own).isSome then
    .ok { env with own := upsert env.own key status count }
  else if key = "__proto__" then
    let t : ProtoVal :=
      match List.lookup "total" env.proto with
      | some (.num n) => .num (n + count)
      | some .nan => .nan
      | none => .nan
    let st1 := protoSet env.proto "total" t
    let st2 := protoSet st1 (strLower status) (.num count)
    .ok { env with proto := st2 }
  else
    match List.lookup key env.proto with
    | some (.num n) =>
      if n = 0 then .ok { env with own := upsert env.own key status count }
      else .error ()
    | some .nan => .ok { env with own := upsert env.own key status count }
    | none =>
      if protoBuiltins.contains key then .ok env
      else .ok { env with own := upsert env.own key status count }

/-- The grouping `forEach` over all SQL rows, aborting at the first
TypeError (which the surrounding catch logs and rethrows). -/
def runGroupingJs (env : GroupEnv) : List (String × String × ℕ) → Except Unit GroupEnv
  | [] => .ok env
  | row :: rest =>
    match applyRowJs env row.1 row.2.1 row.2.2 with
    | .error e => .error e
    | .ok env2 => runGroupingJs env2 rest

/-- The source-rejection analyzer under the full JavaScript object
semantics: it reads and leaves behind the `Object.prototype` state, and can
throw. -/
def jsGetRejectionRateBySource (records : List AppRecord)
    (proto : List (String × ProtoVal)) :
    Except Unit (SourceResult × List (String × ProtoVal)) :=
  match runGroupingJs ⟨[], proto⟩ (sqlGroupRows (fun r => r.source) records) with
  | .error e => .error e
  | .ok env =>
    let insights := env.own.map (fun p => mkSourceInsight p.1 p.2)
    .ok ({ success := true
           insights := insights.map stringifyInsight
           summary := generateRejectionRateSummary insights (highestRejection insights)
             (lowestRejection insights) }, env.proto)

/-- The resume-version analyzer under the full JavaScript object
semantics. -/
def jsGetBestPerformingResumeVersion (records : List AppRecord)
    (proto : List (String × ProtoVal)) :
    Except Unit (ResumeResult × List (String × ProtoVal)) :=
  match runGroupingJs ⟨[], proto⟩ (sqlGroupRows (fun r => r.resumeVersion) records) with
  | .error e => .error e
  | .ok env =>
    let versions := env.own.map (fun p => mkVersionInsight p.1 p.2)
    .ok ({ success := true
           versions := versions
           summary := generateResumeVersionSummary versions (bestVersion versions)
             (worstVersion versions) }, env.proto)

/-- The aggregator under the full JavaScript object semantics: source, then
resume (whose grouping may pollute `Object.prototype`), then the
response-time analyzer (whose only object literal has the fixed keys
Interview/Offer/Rejected and never consults a free-text key, so it neither
reads nor writes the prototype state). -/
def jsGetComprehensiveInsights (now : ℚ) (records : List AppRecord)
    (proto : List (String × ProtoVal)) :
    Except Unit (ComprehensiveResult × List (String × ProtoVal)) :=
  match jsGetRejectionRateBySource records proto with
  | .error e => .error e
  | .ok (rej, st1) =>
    match jsGetBestPerformingResumeVersion records st1 with
    | .error e => .error e
    | .ok (res, st2) =>
      .ok (assembleComprehensive rej res (getAverageResponseTime now records), st2)

/-- A second aggregator invocation against the identical snapshot, run in
the `Object.prototype` state the first invocation leaves behind (the state
is process-global: it survives between calls of the singleton service). -/
def jsSecondRun (now : ℚ) (records : List AppRecord) :
    Except Unit (ComprehensiveResult × List (String × ProtoVal)) :=
  match jsGetComprehensiveInsights now records [] with
  | .ok (_, st) => jsGetComprehensiveInsights now records st
  | .error e => .error e

/-- Whether a call returned normally (rather than throwing). -/
def exceptIsOk {ε α : Type} : Except ε α → Bool
  | .ok _ => true
  | .error _ => false

/-- The `Object.prototype` state a call leaves behind (empty if it threw). -/
def stateAfter {α : Type} :
    Except Unit (α × List (String × ProtoVal)) → List (String × ProtoVal)
  | .ok (_, st) => st
  | .error _ => []

theorem mem_sqlGroupRows_key {key : AppRecord → String} {records : List AppRecord}
    {row : String × String × ℕ} (h : row ∈ sqlGroupRows key records) :
    ∃ r ∈ records, key r = row.1 := by
  simp only [sqlGroupRows, List.mem_map] at h
  obtain ⟨p, hp, hrow⟩ := h
  rw [mem_sortBy, List.mem_dedup, List.mem_map] at hp
  obtain ⟨r, hr, hpr⟩ := hp
  exact ⟨r, hr, by rw [← hrow, ← hpr]⟩

theorem applyRowJs_clean (own : List (String × StatusCounts)) (key status : String)
    (count : ℕ) (hk : safeKey key = true) :
    applyRowJs ⟨own, []⟩ key status count = .ok ⟨upsert own key status count, []⟩ := by
  have hk1 : ¬ key = "__proto__" := by
    intro he
    subst he
    simp [safeKey] at hk
  have hk2 : ¬ key ∈ protoBuiltins := by
    intro hmem
    simp [safeKey, hmem] at hk
  unfold applyRowJs
  by_cases h : (List.lookup key own).isSome
  · rw [if_pos h]
  · rw [if_neg h, if_neg hk1]
    show (match List.lookup key ([] : List (String × ProtoVal)) with
      | some (.num n) =>
        if n = 0 then Except.ok (⟨upsert own key status count, []⟩ : GroupEnv)
        else .error ()
      | some .nan => .ok ⟨upsert own key status count, []⟩
      | none =>
        if protoBuiltins.contains key then .ok ⟨own, []⟩
        else .ok ⟨upsert own key status count, []⟩) = _
    rw [show List.lookup key ([] : List (String × ProtoVal)) = none from rfl]
    simp only []
    simp [hk2]

theorem runGroupingJs_clean (rows : List (String × String × ℕ)) :
    ∀ own : List (String × StatusCounts),
    (∀ row ∈ rows, safeKey row.1 = true) →
    runGroupingJs ⟨own, []⟩ rows
      = .ok ⟨rows.foldl (fun m row => upsert m row.1 row.2.1 row.2.2) own, []⟩ := by
  induction rows with
  | nil => intro own _; rfl
  | cons row rest ih =>
    intro own hsafe
    have h1 := applyRowJs_clean own row.1 row.2.1 row.2.2
      (hsafe row (List.mem_cons_self _ _))
    simp only [runGroupingJs, h1, List.foldl_cons]
    exact ih (upsert own row.1 row.2.1 row.2.2)
      (fun q hq => hsafe q (List.mem_cons_of_mem _ hq))

theorem jsGetRejectionRateBySource_clean (records : List AppRecord)
    (h : ∀ r ∈ records, safeKey r.source = true) :
    jsGetRejectionRateBySource records [] = .ok (getRejectionRateBySource records, []) := by
  have hrows : ∀ row ∈ sqlGroupRows (fun r => r.source) records, safeKey row.1 = true := by
    intro row hrow
    obtain ⟨r, hr, hk⟩ := mem_sqlGroupRows_key hrow
    rw [← hk]
    exact h r hr
  unfold jsGetRejectionRateBySource
  rw [runGroupingJs_clean _ [] hrows]
  rfl

theorem jsGetBestPerformingResumeVersion_clean (records : List AppRecord)
    (h : ∀ r ∈ records, safeKey r.resumeVersion = true) :
    jsGetBestPerformingResumeVersion records []
      = .ok (getBestPerformingResumeVersion records, []) := by
  have hrows : ∀ row ∈ sqlGroupRows (fun r => r.resumeVersion) records,
      safeKey row.1 = true := by
    intro row hrow
    obtain ⟨r, hr, hk⟩ := mem_sqlGroupRows_key hrow
    rw [← hk]
    exact h r hr
  unfold jsGetBestPerformingResumeVersion
  rw [runGroupingJs_clean _ [] hrows]
  rfl

theorem jsGetComprehensiveInsights_clean (now : ℚ) (records : List AppRecord)
    (h1 : ∀ r ∈ records, safeKey r.source = true)
    (h2 : ∀ r ∈ records, safeKey r.resumeVersion = true) :
    jsGetComprehensiveInsights now records []
      = .ok (getComprehensiveInsights now records, []) := by
  simp only [jsGetComprehensiveInsights, jsGetRejectionRateBySource_clean records h1,
    jsGetBestPerformingResumeVersion_clean records h2]
  rfl

set_option maxRecDepth 100000 in
/-- Counterexample to C9: the analyzers are not pure functions of the
snapshot.  A record with resume version `__proto__` makes the resume
grouping skip initialization (the lookup hits the truthy `Object.prototype`)
and pollute it globally with `total = NaN` and the lower-cased status
(`xyz = 1`); on the snapshot that also contains a source literally named
`xyz`, the first comprehensive invocation succeeds, while the second
invocation on the identical snapshot finds the inherited truthy number at
`!sourceData[key]`, skips initialization, and throws a strict-mode
TypeError at `sourceData[key].total += count` — two runs on the same
snapshot do not produce identical results. -/
theorem claim9_counterexample :
    exceptIsOk (jsGetComprehensiveInsights 0
      [⟨"c", "r", "Xyz", "Direct", "__proto__", 0⟩,
       ⟨"c", "r", "Applied", "xyz", "1.0", 0⟩] []) = true ∧
    stateAfter (jsGetComprehensiveInsights 0
      [⟨"c", "r", "Xyz", "Direct", "__proto__", 0⟩,
       ⟨"c", "r", "Applied", "xyz", "1.0", 0⟩] [])
      = [("total", ProtoVal.nan), ("xyz", ProtoVal.num 1)] ∧
    exceptIsOk (jsSecondRun 0
      [⟨"c", "r", "Xyz", "Direct", "__proto__", 0⟩,
       ⟨"c", "r", "Applied", "xyz", "1.0", 0⟩]) = false ∧
    jsGetComprehensiveInsights 0
        [⟨"c", "r", "Xyz", "Direct", "__proto__", 0⟩,
         ⟨"c", "r", "Applied", "xyz", "1.0", 0⟩] []
      ≠ jsSecondRun 0
        [⟨"c", "r", "Xyz", "Direct", "__proto__", 0⟩,
         ⟨"c", "r", "Applied", "xyz", "1.0", 0⟩] := by
  refine ⟨by decide, by decide, by decide, ?_⟩
  intro h
  have h1 : exceptIsOk (jsGetComprehensiveInsights 0
      [⟨"c", "r", "Xyz", "Direct", "__proto__", 0⟩,
       ⟨"c", "r", "Applied", "xyz", "1.0", 0⟩] []) = true := by decide
  have h2 : exceptIsOk (jsSecondRun 0
      [⟨"c", "r", "Xyz", "Direct", "__proto__", 0⟩,
       ⟨"c", "r", "Applied", "xyz", "1.0", 0⟩]) = false := by decide
  rw [h] at h1
  rw [h1] at h2
  exact Bool.noConfusion h2

/-- C9 (amended): each analyzer is a deterministic function of the snapshot
(plus the current time for response-time) provided no source or
resume-version label collides with an `Object.prototype` property (the
accessor `__proto__` or a built-in property name): on such snapshots, run
from the pristine prototype state, the full JavaScript semantics never
throws, never touches `Object.prototype`, returns exactly the pure-model
reports, and a second comprehensive invocation on the identical snapshot
returns the identical result.  Without that restriction the grouping loops
read and mutate the process-global `Object.prototype`, and two runs on the
same snapshot can differ (see the counterexample). -/
theorem claim9 (now : ℚ) (records : List AppRecord)
    (hclean : ∀ r ∈ records, safeKey r.source = true ∧ safeKey r.resumeVersion = true) :
    jsGetRejectionRateBySource records [] = .ok (getRejectionRateBySource records, []) ∧
    jsGetBestPerformingResumeVersion records []
      = .ok (getBestPerformingResumeVersion records, []) ∧
    ∃ r st, jsGetComprehensiveInsights now records [] = Except.ok (r, st) ∧
      jsGetComprehensiveInsights now records st = Except.ok (r, st) ∧
      r = getComprehensiveInsights now records := by
  have h1 := jsGetRejectionRateBySource_clean records (fun r hr => (hclean r hr).1)
  have h2 := jsGetBestPerformingResumeVersion_clean records (fun r hr => (hclean r hr).2)
  have h3 := jsGetComprehensiveInsights_clean now records
    (fun r hr => (hclean r hr).1) (fun r hr => (hclean r hr).2)
  exact ⟨h1, h2, getComprehensiveInsights now records, [], h3, h3, rfl⟩

/-- Witness for C9 (amended) at scenario A (labels LinkedIn and 1.0, both
prototype-safe). -/
theorem claim9_witness :
    jsGetRejectionRateBySource
        [⟨"c", "r", "Rejected", "LinkedIn", "1.0", 0⟩,
         ⟨"c", "r", "Applied", "LinkedIn", "1.0", 0⟩] []
      = .ok (getRejectionRateBySource
          [⟨"c", "r", "Rejected", "LinkedIn", "1.0", 0⟩,
           ⟨"c", "r", "Applied", "LinkedIn", "1.0", 0⟩], []) ∧
    jsGetBestPerformingResumeVersion
        [⟨"c", "r", "Rejected", "LinkedIn", "1.0", 0⟩,
         ⟨"c", "r", "Applied", "LinkedIn", "1.0", 0⟩] []
      = .ok (getBestPerformingResumeVersion
          [⟨"c", "r", "Rejected", "LinkedIn", "1.0", 0⟩,
           ⟨"c", "r", "Applied", "LinkedIn", "1.0", 0⟩], []) ∧
    ∃ r st, jsGetComprehensiveInsights 0
        [⟨"c", "r", "Rejected", "LinkedIn", "1.0", 0⟩,
         ⟨"c", "r", "Applied", "LinkedIn", "1.0", 0⟩] [] = Except.ok (r, st) ∧
      jsGetComprehensiveInsights 0
        [⟨"c", "r", "Rejected", "LinkedIn", "1.0", 0⟩,
         ⟨"c", "r", "Applied", "LinkedIn", "1.0", 0⟩] st = Except.ok (r, st) ∧
      r = getComprehensiveInsights 0
        [⟨"c", "r", "Rejected", "LinkedIn", "1.0", 0⟩,
         ⟨"c", "r", "Applied", "LinkedIn", "1.0", 0⟩] :=
  claim9 0
    [⟨"c", "r", "Rejected", "LinkedIn", "1.0", 0⟩,
     ⟨"c", "r", "Applied", "LinkedIn", "1.0", 0⟩] (by decide)
